import Mathlib

/-!
Verification development for the RISCV-VP virtual prototype.

The definitions below are shallow embeddings, translated from the C++
sources of the repository:
  - src/src/Memory.cpp        (Memory::b_transport)
  - src/src/BusCtrl.cpp       (BusCtrl::b_transport) with the address
    constants of src/inc/BusCtrl.h
  - src/inc/DMA.h             (DMA::start_transfer, DMA::b_transport)
  - src/inc/ROB.h             (ReorderBuffer<32>)
  - src/inc/StoreBuffer.h     (StoreBuffer<8>)
  - src/src/CPU_P64_6_Cycle.cpp (the RV64 6-stage pipeline)
  - src/src/CPU_P32_6_Cycle.cpp (the RV32 6-stage pipeline)

Machine integers are modelled as Nat with explicit reduction modulo
2^32 / 2^64 where C++ overflow semantics matter; C++ signed values
(immediates) are modelled as Int with explicit two's-complement
conversions.  SystemC time annotations and logging are not modelled.
-/

namespace RiscvVP

/-- Reduce to an unsigned 8-bit value. -/
def u8 (n : Nat) : Nat := n % 2 ^ 8

/-- Reduce to an unsigned 32-bit value (C++ uint32_t). -/
def u32 (n : Nat) : Nat := n % 2 ^ 32

/-- Reduce to an unsigned 64-bit value (C++ uint64_t). -/
def u64 (n : Nat) : Nat := n % 2 ^ 64

/-- Reinterpret an unsigned value as C++ int32_t (two's complement). -/
def toI32 (n : Nat) : Int :=
  if n % 2 ^ 32 < 2 ^ 31 then ((n % 2 ^ 32 : Nat) : Int)
  else ((n % 2 ^ 32 : Nat) : Int) - 2 ^ 32

/-- Reinterpret an unsigned value as C++ int64_t (two's complement). -/
def toI64 (n : Nat) : Int :=
  if n % 2 ^ 64 < 2 ^ 63 then ((n % 2 ^ 64 : Nat) : Int)
  else ((n % 2 ^ 64 : Nat) : Int) - 2 ^ 64

/-- Convert a signed value back to uint32_t (reduction mod 2^32). -/
def ofI32 (i : Int) : Nat := (i % (2 ^ 32 : Int)).toNat

/-- Convert a signed value back to uint64_t (reduction mod 2^64). -/
def ofI64 (i : Int) : Nat := (i % (2 ^ 64 : Int)).toNat

/-- C arithmetic right shift on a signed value (rounds toward minus
infinity, i.e. floor division by a power of two). -/
def sar (i : Int) (k : Nat) : Int := Int.fdiv i (2 ^ k)

/-- C left shift on int32_t, wrapping modulo 2^32 as on the reference
implementation. -/
def shlI32 (i : Int) (k : Nat) : Int := toI32 ((ofI32 i) <<< k)

/-- uint32_t plus a signed immediate (C++ usual arithmetic conversions,
result reduced mod 2^32). -/
def addImm32 (a : Nat) (imm : Int) : Nat := ofI32 ((a : Int) + imm)

/-- uint64_t plus a signed immediate, result reduced mod 2^64. -/
def addImm64 (a : Nat) (imm : Int) : Nat := ofI64 ((a : Int) + imm)

/-! ## TLM transaction model

A tlm_generic_payload carries a command, a byte address, a data buffer
(list of byte values), a data length, a streaming width, an optional
byte-enable pointer (modelled as a flag), and a response status. -/

inductive TlmCommand where
  | read
  | write
deriving DecidableEq, Repr

inductive TlmStatus where
  | ok
  | incomplete
  | addressError
  | burstError
  | byteEnableError
deriving DecidableEq, Repr

structure TlmTrans where
  cmd : TlmCommand
  addr : Nat
  data : List Nat
  len : Nat
  wid : Nat
  byteEnable : Bool
  status : TlmStatus
deriving Repr

/-- The uint32_t obtained by memcpy of the first four buffer bytes
(little-endian host, as in BusCtrl::b_transport and DMA::b_transport). -/
def leWord (data : List Nat) : Nat :=
  u8 (data.getD 0 0) + 2 ^ 8 * u8 (data.getD 1 0) + 2 ^ 16 * u8 (data.getD 2 0) +
    2 ^ 24 * u8 (data.getD 3 0)

/-! ## Memory (src/src/Memory.cpp)

The backing store is a byte array of size SIZE (the constant lives in
the Memory.h header, absent from the snapshot, so SIZE is a parameter
here).  Memory contents are a function from byte address to byte. -/

namespace Memory

/-- Write len bytes of buf into mem starting at address a
(std::copy_n(ptr, len, mem.begin() + adr)). -/
def memWrite (mem : Nat → Nat) (a : Nat) (buf : List Nat) (len : Nat) : Nat → Nat :=
  fun x => if a ≤ x ∧ x < a + len then buf.getD (x - a) 0 else mem x

/-- Read len bytes of mem starting at address a
(std::copy_n(mem.cbegin() + adr, len, ptr)). -/
def memRead (mem : Nat → Nat) (a len : Nat) : List Nat :=
  (List.range len).map fun i => mem (a + i)

/-- Memory::b_transport.  Returns the updated backing store and the
transaction with its response status (and, for reads, its data buffer)
updated.  The latency annotation is not modelled. -/
def b_transport (SIZE : Nat) (mem : Nat → Nat) (t : TlmTrans) : (Nat → Nat) × TlmTrans :=
  if SIZE ≤ t.addr ∨ SIZE < t.addr + t.len then
    (mem, { t with status := TlmStatus.addressError })
  else if t.byteEnable then
    (mem, { t with status := TlmStatus.byteEnableError })
  else if 4 < t.len ∨ t.wid < t.len then
    (mem, { t with status := TlmStatus.burstError })
  else
    match t.cmd with
    | TlmCommand.read =>
        (mem, { t with data := memRead mem t.addr t.len, status := TlmStatus.ok })
    | TlmCommand.write =>
        (memWrite mem t.addr t.data t.len, { t with status := TlmStatus.ok })

end Memory

/-! ## Bus controller (src/src/BusCtrl.cpp)

Address constants from src/inc/BusCtrl.h. -/

def TRACE_MEMORY_ADDRESS : Nat := 0x40000000
def TIMER_MEMORY_ADDRESS_LO : Nat := 0x40004000
def TIMER_MEMORY_ADDRESS_HI : Nat := 0x40004004
def TIMERCMP_MEMORY_ADDRESS_LO : Nat := 0x40004008
def TIMERCMP_MEMORY_ADDRESS_HI : Nat := 0x4000400C
def UART0_BASE_ADDRESS : Nat := 0x10000000
def CLINT_BASE_ADDRESS : Nat := 0x02000000
def PLIC_BASE_ADDRESS : Nat := 0x0C000000
def DMA_BASE_ADDRESS : Nat := 0x30000000
def SYSCALL_BASE_ADDRESS : Nat := 0x80000000
def TO_HOST_ADDRESS : Nat := 0x90000000

/-- Targets a transaction can be routed to by BusCtrl::b_transport. -/
inductive BusTarget where
  | tohostLegacy
  | tohostStd
  | uart
  | clint
  | plic
  | dma
  | syscall
  | timer
  | trace
  | memory
deriving DecidableEq, Repr

/-- Result of one BusCtrl::b_transport call: the (possibly updated) main
memory, the transaction as seen by the initiator afterwards, whether
sc_stop was requested, and the routing decision taken. -/
structure BusOutcome where
  mem : Nat → Nat
  trans : TlmTrans
  stop : Bool
  target : BusTarget

namespace BusCtrl

/-- BusCtrl::b_transport.  Peripheral targets other than main memory
keep their own state elsewhere; here only the routing, the response
status seen by the initiator, the sc_stop requests, and the effect on
main memory are modelled.  Note that after forwarding to any target the
code unconditionally sets TLM_OK_RESPONSE on the transaction. -/
def b_transport (SIZE : Nat) (mem : Nat → Nat) (t : TlmTrans) : BusOutcome :=
  let adr_bytes := t.addr
  let adr := adr_bytes / 4
  if adr = TO_HOST_ADDRESS / 4 then
    ⟨mem, { t with status := TlmStatus.ok }, true, BusTarget.tohostLegacy⟩
  else if adr = 0x20000400 ∧ t.cmd = TlmCommand.write ∧
      (4 ≤ t.len ∧ leWord t.data ≠ 0) then
    -- sc_stop and return without touching the response status
    ⟨mem, t, true, BusTarget.tohostStd⟩
  else if UART0_BASE_ADDRESS ≤ adr_bytes ∧ adr_bytes < UART0_BASE_ADDRESS + 0x100 then
    ⟨mem, { t with status := TlmStatus.ok }, false, BusTarget.uart⟩
  else if CLINT_BASE_ADDRESS ≤ adr_bytes ∧ adr_bytes < CLINT_BASE_ADDRESS + 0x10000 then
    ⟨mem, { t with status := TlmStatus.ok }, false, BusTarget.clint⟩
  else if PLIC_BASE_ADDRESS ≤ adr_bytes ∧ adr_bytes < PLIC_BASE_ADDRESS + 0x400000 then
    ⟨mem, { t with status := TlmStatus.ok }, false, BusTarget.plic⟩
  else if DMA_BASE_ADDRESS ≤ adr_bytes ∧ adr_bytes < DMA_BASE_ADDRESS + 0x1000 then
    ⟨mem, { t with status := TlmStatus.ok }, false, BusTarget.dma⟩
  else if SYSCALL_BASE_ADDRESS ≤ adr_bytes ∧ adr_bytes < SYSCALL_BASE_ADDRESS + 0x1000 then
    ⟨mem, { t with status := TlmStatus.ok }, false, BusTarget.syscall⟩
  else if adr = TIMER_MEMORY_ADDRESS_HI / 4 ∨ adr = TIMER_MEMORY_ADDRESS_LO / 4 ∨
      adr = TIMERCMP_MEMORY_ADDRESS_HI / 4 ∨ adr = TIMERCMP_MEMORY_ADDRESS_LO / 4 then
    ⟨mem, { t with status := TlmStatus.ok }, false, BusTarget.timer⟩
  else if adr = TRACE_MEMORY_ADDRESS / 4 then
    ⟨mem, { t with status := TlmStatus.ok }, false, BusTarget.trace⟩
  else
    let r := Memory.b_transport SIZE mem t
    ⟨r.1, { r.2 with status := TlmStatus.ok }, false, BusTarget.memory⟩

end BusCtrl

/-! ## DMA engine (src/inc/DMA.h)

Registers src, dst, len, control are uint32_t.  The two bus operations
of a transfer are recorded as a list; their response statuses are
supplied by the environment (the bus). -/

/-- A bus operation issued by the DMA master socket. -/
inductive DMABusOp where
  | busRead (addr len : Nat)
  | busWrite (addr len : Nat)
deriving DecidableEq, Repr

structure DMAState where
  src : Nat
  dst : Nat
  len : Nat
  control : Nat
  inFlight : Bool
deriving Repr

namespace DMA

/-- DMA::start_transfer.  readStatus and writeStatus are the response
statuses the bus returns for the read and the write operation.  While
the operations are issued in_flight_ is true; the returned state is the
state after start_transfer returns.  The mem_master bound check is
assumed to pass (the socket is bound in VPTop). -/
def start_transfer (s : DMAState) (readStatus : TlmStatus) (writeStatus : TlmStatus) :
    DMAState × List DMABusOp :=
  if s.len = 0 then (s, [])
  else if readStatus ≠ TlmStatus.ok then
    -- read error: abort, clear in_flight_, control is left unchanged
    ({ s with inFlight := false }, [DMABusOp.busRead s.src s.len])
  else
    -- the write response status is not examined by the code
    let _ := writeStatus
    ({ s with control := s.control &&& 0xFFFFFFFE, inFlight := false },
      [DMABusOp.busRead s.src s.len, DMABusOp.busWrite s.dst s.len])

/-- DMA::b_transport (the register interface).  Returns the DMA state
after the call, the transaction as returned, and the bus operations a
started transfer issued. -/
def b_transport (s : DMAState) (t : TlmTrans)
    (readStatus writeStatus : TlmStatus) : DMAState × TlmTrans × List DMABusOp :=
  if t.len ≠ 4 then (s, { t with status := TlmStatus.burstError }, [])
  else
    let val := if t.cmd = TlmCommand.write then leWord t.data else 0
    match t.cmd, t.addr with
    | TlmCommand.write, 0x00 => ({ s with src := val }, { t with status := TlmStatus.ok }, [])
    | TlmCommand.write, 0x04 => ({ s with dst := val }, { t with status := TlmStatus.ok }, [])
    | TlmCommand.write, 0x08 => ({ s with len := val }, { t with status := TlmStatus.ok }, [])
    | TlmCommand.write, 0x0C =>
        let s1 := { s with control := val }
        if val &&& 1 ≠ 0 then
          let r := start_transfer s1 readStatus writeStatus
          (r.1, { t with status := TlmStatus.ok }, r.2)
        else (s1, { t with status := TlmStatus.ok }, [])
    | TlmCommand.read, 0x00 => (s, { t with data := wordBytes s.src, status := TlmStatus.ok }, [])
    | TlmCommand.read, 0x04 => (s, { t with data := wordBytes s.dst, status := TlmStatus.ok }, [])
    | TlmCommand.read, 0x08 => (s, { t with data := wordBytes s.len, status := TlmStatus.ok }, [])
    | TlmCommand.read, 0x0C => (s, { t with data := wordBytes s.control, status := TlmStatus.ok }, [])
    | TlmCommand.read, _ => (s, { t with data := wordBytes 0, status := TlmStatus.ok }, [])
    | TlmCommand.write, _ => (s, { t with status := TlmStatus.ok }, [])
where
  /-- memcpy of a uint32_t into the four-byte data buffer. -/
  wordBytes (v : Nat) : List Nat :=
    [v % 2 ^ 8, v / 2 ^ 8 % 2 ^ 8, v / 2 ^ 16 % 2 ^ 8, v / 2 ^ 24 % 2 ^ 8]

end DMA

/-! ## Reorder buffer (src/inc/ROB.h, instantiated at SIZE = 32)

The entries array is modelled as a total function from Nat; only the
indices 0..31 are ever used.  The ghost fields ghostRd and ghostSerial
are specification instrumentation (not present in the C++ struct): the
pipeline model records in them the architectural destination register
and the program-order serial number of the instruction that owns the
entry, so that the invariants below can speak about them. -/

structure RobEntry where
  valid : Bool := false
  ready : Bool := false
  destReg : Nat := 0
  result : Nat := 0
  isStore : Bool := false
  isBranch : Bool := false
  exception : Bool := false
  pc : Nat := 0
  ghostRd : Nat := 0
  ghostSerial : Nat := 0
deriving Repr

structure Rob where
  entries : Nat → RobEntry
  head : Nat
  tail : Nat
  count : Nat

namespace Rob

def init : Rob := ⟨fun _ => {}, 0, 0, 0⟩

/-- ReorderBuffer::is_full. -/
def isFull (r : Rob) : Bool := r.count == 32

/-- ReorderBuffer::is_empty. -/
def isEmpty (r : Rob) : Bool := r.count == 0

/-- ReorderBuffer::allocate.  Returns -1 when full, else the index. -/
def allocate (r : Rob) : Rob × Int :=
  if r.isFull then (r, -1)
  else
    let index := r.tail
    let entries' := fun j =>
      if j = index then
        { r.entries index with valid := true, ready := false, exception := false }
      else r.entries j
    ({ r with entries := entries', tail := (r.tail + 1) % 32, count := r.count + 1 },
      (index : Int))

/-- ReorderBuffer::complete. -/
def complete (r : Rob) (index : Int) (result : Nat) (destReg : Nat) : Rob :=
  if index < 0 ∨ 32 ≤ index then r
  else
    let i := index.toNat
    { r with entries := fun j =>
        if j = i then
          { r.entries i with ready := true, result := result, destReg := destReg }
        else r.entries j }

/-- ReorderBuffer::head_ready. -/
def headReady (r : Rob) : Bool := (r.entries r.head).valid && (r.entries r.head).ready

/-- ReorderBuffer::get_head. -/
def getHead (r : Rob) : RobEntry := r.entries r.head

/-- ReorderBuffer::get_head_index. -/
def getHeadIndex (r : Rob) : Nat := r.head

/-- ReorderBuffer::retire. -/
def retire (r : Rob) : Rob :=
  if r.isEmpty then r
  else
    { r with
      entries := fun j =>
        if j = r.head then { r.entries r.head with valid := false } else r.entries j,
      head := (r.head + 1) % 32,
      count := r.count - 1 }

/-- Direct metadata update through operator[], as performed by the Issue
stage right after allocation (rob[idx].pc, .is_store, .is_branch), plus
the ghost instrumentation fields. -/
def setMeta (r : Rob) (i : Nat) (pc : Nat) (isStore isBranch : Bool)
    (gRd gSerial : Nat) : Rob :=
  { r with entries := fun j =>
      if j = i then
        { r.entries i with
          pc := pc
          isStore := isStore
          isBranch := isBranch
          ghostRd := gRd
          ghostSerial := gSerial }
      else r.entries j }

end Rob

/-! ## Store buffer (src/inc/StoreBuffer.h, instantiated at SIZE = 8) -/

structure SbEntry where
  valid : Bool := false
  address : Nat := 0
  data : Nat := 0
  size : Nat := 0
  robIndex : Int := -1
deriving Repr

structure Sb where
  entries : Nat → SbEntry

namespace Sb

def init : Sb := ⟨fun _ => {}⟩

/-- StoreBuffer::add_store: linear scan for the first free entry among
indices 0..7; returns -1 when full. -/
def addStore (s : Sb) (address data : Nat) (size : Nat) (robIndex : Int) : Sb × Int :=
  match (List.range 8).find? (fun i => !(s.entries i).valid) with
  | some i =>
      (⟨fun j => if j = i then ⟨true, address, data, size, robIndex⟩ else s.entries j⟩,
        (i : Int))
  | none => (s, -1)

/-- StoreBuffer::commit_store: linear scan for the valid entry with the
given ROB index; deallocates it and returns its payload. -/
def commitStore (s : Sb) (robIndex : Int) : Option (Sb × Nat × Nat × Nat) :=
  match (List.range 8).find?
      (fun i => (s.entries i).valid && (s.entries i).robIndex == robIndex) with
  | some i =>
      some (⟨fun j => if j = i then { s.entries i with valid := false } else s.entries j⟩,
        (s.entries i).address, (s.entries i).data, (s.entries i).size)
  | none => none

end Sb

/-! ## RV64 6-stage pipeline (src/src/CPU_P64_6_Cycle.cpp)

Latches and state follow src/inc/CPU_P64_6_Cycle.h.  The register bank
is a function from register index to uint64_t value; per the spec the
entry 0 ignores writes (Registers.h is not part of the snapshot; only
this x0 behaviour of the register bank is modelled from the spec, and no
claim below depends on it).  Instruction fetches and data-bus loads go
to the environment; the data-bus stores issued at commit are recorded in
a ghost observation trace writeTrace together with the program-order
serial number of the owning instruction. -/

/-- Register-bank read (Registers::getValue). -/
def getReg (regs : Nat → Nat) (i : Nat) : Nat := regs i

/-- Register-bank write; index 0 is hardwired to zero (modelled from the
spec, see above). -/
def setReg (regs : Nat → Nat) (i v : Nat) : Nat → Nat :=
  fun j => if j = i ∧ i ≠ 0 then v else regs j

/-- PCGen to Fetch latch. -/
structure PFLatch where
  pc : Nat := 0
  valid : Bool := false
deriving Repr

/-- Fetch to ID latch. -/
structure FILatch where
  pc : Nat := 0
  instr : Nat := 0
  valid : Bool := false
deriving Repr

/-- ID to Issue latch. -/
structure IDLatch where
  pc : Nat := 0
  instr : Nat := 0
  rd : Nat := 0
  rs1 : Nat := 0
  rs2 : Nat := 0
  imm : Int := 0
  opcode : Nat := 0
  funct3 : Nat := 0
  funct7 : Nat := 0
  valid : Bool := false
deriving Repr

/-- Issue to EX latch. -/
structure IELatch where
  pc : Nat := 0
  rs1val : Nat := 0
  rs2val : Nat := 0
  imm : Int := 0
  rd : Nat := 0
  opcode : Nat := 0
  funct3 : Nat := 0
  funct7 : Nat := 0
  robIndex : Int := -1
  valid : Bool := false
deriving Repr

/-- A data-bus store issued by the Commit stage (via
MemoryInterface::writeDataMem / writeDataMem64), together with the ghost
program-order serial of the owning store instruction. -/
structure MemWrite where
  addr : Nat
  data : Nat
  size : Nat
  ghostSerial : Nat
deriving DecidableEq, Repr

structure P64State where
  pcgenFetchReg : PFLatch := {}
  pcgenFetchNext : PFLatch := {}
  fetchIdReg : FILatch := {}
  fetchIdNext : FILatch := {}
  idIssueReg : IDLatch := {}
  idIssueNext : IDLatch := {}
  issueExReg : IELatch := {}
  issueExNext : IELatch := {}
  nextPc : Nat := 0
  stallPcgen : Bool := false
  stallFetch : Bool := false
  stallIssue : Bool := false
  flushPipeline : Bool := false
  pcRedirectTarget : Nat := 0
  pcRedirectValid : Bool := false
  scoreboard : Nat → Bool
  rob : Rob
  storeBuffer : Sb
  regs : Nat → Nat
  cycles : Nat := 0
  instructions : Nat := 0
  stalls : Nat := 0
  branches : Nat := 0
  stopReq : Bool := false
  writeTrace : List MemWrite := []
  serialCtr : Nat := 0

/-- Per-cycle environment of the RV64 pipeline: the instruction bus
(fetch_instruction; none models a bus error, the DMI fast path and the
slow path both return the word), the data bus used for loads
(MemoryInterface::readDataMem returns uint32_t, readDataMem64 returns
uint64_t), and the global DMA-in-flight flag (which this CPU variant
never consults). -/
structure P64Env where
  fetch : Nat → Option Nat
  load32 : Nat → Nat → Nat
  load64 : Nat → Nat → Nat
  dmaInFlight : Bool

namespace P64

/-- CPURV64P6_Cycle::Commit_stage. -/
def commitStage (s : P64State) : P64State :=
  if s.rob.headReady then
    let entry := s.rob.getHead
    let s1 :=
      if entry.isStore then
        match s.storeBuffer.commitStore ((s.rob.getHeadIndex : Nat) : Int) with
        | some (sb', addr, data, size) =>
            let w : MemWrite :=
              if size = 8 then ⟨addr, u64 data, 8, entry.ghostSerial⟩
              else ⟨addr, u32 data, size, entry.ghostSerial⟩
            { s with storeBuffer := sb', writeTrace := s.writeTrace ++ [w] }
        | none => s
      else s
    let s2 :=
      if entry.destReg ≠ 0 then
        { s1 with
          regs := setReg s1.regs entry.destReg entry.result
          scoreboard := fun i => if i = entry.destReg then false else s1.scoreboard i }
      else s1
    let s3 := { s2 with instructions := s2.instructions + 1 }
    { s3 with rob := s3.rob.retire }
  else s

/-- ALU / branch portion of CPURV64P6_Cycle::EX_stage: computes
(result, branch_taken, branch_target, isBranchOpcode) from the latch
contents.  Loads and stores are handled by the caller. -/
def exAlu (r : IELatch) : Nat × Bool × Nat :=
  match r.opcode with
  | 0x33 =>
      let result :=
        match r.funct3 with
        | 0x0 => if r.funct7 = 0x20 then u64 (r.rs1val + (2 ^ 64 - u64 r.rs2val))
                 else u64 (r.rs1val + r.rs2val)
        | 0x1 => u64 (r.rs1val <<< (r.rs2val &&& 0x3F))
        | 0x2 => if toI64 r.rs1val < toI64 r.rs2val then 1 else 0
        | 0x3 => if u64 r.rs1val < u64 r.rs2val then 1 else 0
        | 0x4 => u64 (r.rs1val ^^^ r.rs2val)
        | 0x5 => if r.funct7 = 0x20 then ofI64 (sar (toI64 r.rs1val) (r.rs2val &&& 0x3F))
                 else u64 (u64 r.rs1val >>> (r.rs2val &&& 0x3F))
        | 0x6 => u64 (r.rs1val ||| r.rs2val)
        | 0x7 => u64 (r.rs1val &&& r.rs2val)
        | _ => 0
      (result, false, 0)
  | 0x13 =>
      let result :=
        match r.funct3 with
        | 0x0 => addImm64 r.rs1val r.imm
        | 0x2 => if toI64 r.rs1val < r.imm then 1 else 0
        | 0x3 => if u64 r.rs1val < ofI64 r.imm then 1 else 0
        | 0x4 => u64 (r.rs1val ^^^ ofI64 r.imm)
        | 0x6 => u64 (r.rs1val ||| ofI64 r.imm)
        | 0x7 => u64 (r.rs1val &&& ofI64 r.imm)
        | 0x1 => u64 (r.rs1val <<< (ofI64 r.imm &&& 0x3F))
        | 0x5 => if ofI64 r.imm &&& 0x400 ≠ 0 then
                   ofI64 (sar (toI64 r.rs1val) (ofI64 r.imm &&& 0x3F))
                 else u64 (u64 r.rs1val >>> (ofI64 r.imm &&& 0x3F))
        | _ => 0
      (result, false, 0)
  | 0x37 => (ofI64 r.imm, false, 0)
  | 0x17 => (addImm64 r.pc r.imm, false, 0)
  | 0x6F => (u64 (r.pc + 4), true, addImm64 r.pc r.imm)
  | 0x67 => (u64 (r.pc + 4), true, addImm64 r.rs1val r.imm &&& 0xFFFFFFFFFFFFFFFE)
  | 0x63 =>
      let target := addImm64 r.pc r.imm
      let taken : Bool :=
        match r.funct3 with
        | 0x0 => u64 r.rs1val == u64 r.rs2val
        | 0x1 => u64 r.rs1val != u64 r.rs2val
        | 0x4 => decide (toI64 r.rs1val < toI64 r.rs2val)
        | 0x5 => decide (toI64 r.rs2val ≤ toI64 r.rs1val)
        | 0x6 => decide (u64 r.rs1val < u64 r.rs2val)
        | 0x7 => decide (u64 r.rs2val ≤ u64 r.rs1val)
        | _ => false
      (0, taken, target)
  | _ => (0, false, 0)

/-- Load portion of CPURV64P6_Cycle::EX_stage (opcode 0x03). -/
def exLoad (env : P64Env) (r : IELatch) : Nat :=
  let addr := addImm64 r.rs1val r.imm
  match r.funct3 with
  | 0x0 => ofI64 (toI32 0 + (if u8 (env.load32 addr 1) < 2 ^ 7 then (u8 (env.load32 addr 1) : Int)
             else (u8 (env.load32 addr 1) : Int) - 2 ^ 8))
  | 0x1 => ofI64 (if u32 (env.load32 addr 2) % 2 ^ 16 < 2 ^ 15 then
             ((u32 (env.load32 addr 2) % 2 ^ 16 : Nat) : Int)
             else ((u32 (env.load32 addr 2) % 2 ^ 16 : Nat) : Int) - 2 ^ 16)
  | 0x2 => ofI64 (toI32 (env.load32 addr 4))
  | 0x3 => u64 (env.load64 addr 8)
  | 0x4 => u32 (env.load32 addr 1)
  | 0x5 => u32 (env.load32 addr 2)
  | 0x6 => u32 (env.load32 addr 4)
  | _ => 0

/-- Store size selection of CPURV64P6_Cycle::EX_stage (opcode 0x23);
funct3 outside the four store encodings leaves size = 0. -/
def exStoreSize (funct3 : Nat) : Nat :=
  match funct3 with
  | 0x0 => 1
  | 0x1 => 2
  | 0x2 => 4
  | 0x3 => 8
  | _ => 0

/-- CPURV64P6_Cycle::EX_stage. -/
def exStage (env : P64Env) (s : P64State) : P64State :=
  if !s.issueExReg.valid then s
  else
    let r := s.issueExReg
    let a := exAlu r
    let branchTaken := a.2.1
    let branchTarget := a.2.2
    let s := if r.opcode = 0x63 then { s with branches := s.branches + 1 } else s
    let result := if r.opcode = 0x03 then exLoad env r else a.1
    let s :=
      if r.opcode = 0x23 then
        let addr := addImm64 r.rs1val r.imm
        { s with storeBuffer :=
            (s.storeBuffer.addStore addr r.rs2val (exStoreSize r.funct3) r.robIndex).1 }
      else s
    let s :=
      if branchTaken then
        { s with
          pcRedirectTarget := branchTarget
          pcRedirectValid := true
          flushPipeline := true }
      else s
    let s :=
      if r.opcode = 0x73 ∧ r.funct3 = 0 ∧ r.imm = 0 ∧ getReg s.regs 17 = 93 then
        { s with stopReq := true }
      else s
    if 0 ≤ r.robIndex then
      { s with rob := s.rob.complete r.robIndex result r.rd }
    else s

/-- CPURV64P6_Cycle::Issue_stage. -/
def issueStage (s : P64State) : P64State :=
  let s := { s with stallPcgen := false, stallFetch := false, stallIssue := false }
  if s.flushPipeline then
    { s with issueExNext := { s.issueExNext with valid := false } }
  else if !s.idIssueReg.valid then
    { s with issueExNext := { s.issueExNext with valid := false } }
  else if s.scoreboard s.idIssueReg.rs1 || s.scoreboard s.idIssueReg.rs2 then
    { s with
      stallIssue := true
      stallFetch := true
      stallPcgen := true
      issueExNext := { s.issueExNext with valid := false }
      stalls := s.stalls + 1 }
  else
    let ar := s.rob.allocate
    if ar.2 < 0 then
      { s with
        stallIssue := true
        stallFetch := true
        stallPcgen := true
        issueExNext := { s.issueExNext with valid := false }
        stalls := s.stalls + 1 }
    else
      let d := s.idIssueReg
      let rob2 := ar.1.setMeta ar.2.toNat d.pc (d.opcode == 0x23)
        (d.opcode == 0x63 || d.opcode == 0x6F || d.opcode == 0x67) d.rd s.serialCtr
      { s with
        rob := rob2
        serialCtr := s.serialCtr + 1
        issueExNext :=
          { pc := d.pc
            rs1val := getReg s.regs d.rs1
            rs2val := getReg s.regs d.rs2
            imm := d.imm
            rd := d.rd
            opcode := d.opcode
            funct3 := d.funct3
            funct7 := d.funct7
            robIndex := ar.2
            valid := true }
        scoreboard := fun i => if i = d.rd ∧ d.rd ≠ 0 then true else s.scoreboard i }

/-- Immediate decode of CPURV64P6_Cycle::ID_stage (sign extension via
int32_t arithmetic as in the source). -/
def idImm64 (opcode instr : Nat) : Int :=
  match opcode with
  | 0x13 => sar (toI32 instr) 20
  | 0x03 => sar (toI32 instr) 20
  | 0x67 => sar (toI32 instr) 20
  | 0x23 => sar (shlI32 (toI32 (((instr >>> 25) <<< 5) ||| ((instr >>> 7) &&& 0x1F))) 20) 20
  | 0x63 => sar (shlI32 (toI32 (((instr >>> 31) <<< 12) ||| (((instr >>> 7) &&& 1) <<< 11) |||
      (((instr >>> 25) &&& 0x3F) <<< 5) ||| (((instr >>> 8) &&& 0xF) <<< 1))) 19) 19
  | 0x37 => toI32 (instr &&& 0xFFFFF000)
  | 0x17 => toI32 (instr &&& 0xFFFFF000)
  | 0x6F => sar (shlI32 (toI32 (((instr >>> 31) <<< 20) ||| (((instr >>> 12) &&& 0xFF) <<< 12) |||
      (((instr >>> 20) &&& 1) <<< 11) ||| (((instr >>> 21) &&& 0x3FF) <<< 1))) 11) 11
  | 0x73 => sar (toI32 instr) 20
  | _ => 0

/-- CPURV64P6_Cycle::ID_stage. -/
def idStage (s : P64State) : P64State :=
  if s.flushPipeline then
    { s with idIssueNext := { s.idIssueNext with valid := false } }
  else if s.stallIssue then s
  else if !s.fetchIdReg.valid then
    { s with idIssueNext := { s.idIssueNext with valid := false } }
  else
    let instr := s.fetchIdReg.instr
    let opcode := instr &&& 0x7F
    { s with idIssueNext :=
        { pc := s.fetchIdReg.pc
          instr := instr
          opcode := opcode
          funct3 := (instr >>> 12) &&& 0x7
          rs1 := (instr >>> 15) &&& 0x1F
          rs2 := (instr >>> 20) &&& 0x1F
          funct7 := (instr >>> 25) &&& 0x7F
          rd := if opcode = 0x23 ∨ opcode = 0x63 then 0 else (instr >>> 7) &&& 0x1F
          imm := idImm64 opcode instr
          valid := true } }

/-- CPURV64P6_Cycle::Fetch_stage. -/
def fetchStage (env : P64Env) (s : P64State) : P64State :=
  if s.stallFetch then s
  else if !s.pcgenFetchReg.valid then
    { s with fetchIdNext := { s.fetchIdNext with valid := false } }
  else if s.flushPipeline then
    { s with fetchIdNext := { s.fetchIdNext with valid := false } }
  else
    match env.fetch s.pcgenFetchReg.pc with
    | some w => { s with fetchIdNext := { pc := s.pcgenFetchReg.pc, instr := w, valid := true } }
    | none => { s with fetchIdNext := { s.fetchIdNext with valid := false } }

/-- CPURV64P6_Cycle::PCGen_stage. -/
def pcgenStage (s : P64State) : P64State :=
  if s.flushPipeline then
    { s with
      nextPc := s.pcRedirectTarget
      flushPipeline := false
      pcRedirectValid := false
      pcgenFetchNext := { s.pcgenFetchNext with valid := false } }
  else if s.stallPcgen then s
  else
    { s with
      pcgenFetchNext := { pc := s.nextPc, valid := true }
      nextPc := u64 (s.nextPc + 4) }

/-- Latch transfer at the clock edge (the four reg := next copies at the
top of the main loop of cycle_thread). -/
def latchCopy (s : P64State) : P64State :=
  { s with
    issueExReg := s.issueExNext
    idIssueReg := s.idIssueNext
    fetchIdReg := s.fetchIdNext
    pcgenFetchReg := s.pcgenFetchNext }

/-- One iteration of CPURV64P6_Cycle::cycle_thread: latch transfer, the
six stages in reverse order, the cycle-counter update, and the
termination check.  The Bool result is true when the iteration prints
the statistics and calls sc_stop (the pipeline-empty termination). -/
def step (env : P64Env) (s : P64State) : P64State × Bool :=
  let s := latchCopy s
  let s := commitStage s
  let s := exStage env s
  let s := issueStage s
  let s := idStage s
  let s := fetchStage env s
  let s := pcgenStage s
  let s := { s with cycles := s.cycles + 1 }
  let selfStop := decide (100 < s.cycles) && !s.pcgenFetchReg.valid &&
    !s.pcgenFetchNext.valid && !s.fetchIdReg.valid && !s.idIssueReg.valid &&
    !s.issueExReg.valid && s.rob.isEmpty
  (s, selfStop)

/-- Construction state of CPURV64P6_Cycle: all latches invalid, empty
ROB and store buffer, clear scoreboard, next_pc seeded with the entry
PC.  The initial register-bank contents are a parameter (the constructor
also seeds sp; no claim depends on register values). -/
def initState (pc : Nat) (regs0 : Nat → Nat) : P64State :=
  { scoreboard := fun _ => false
    rob := Rob.init
    storeBuffer := Sb.init
    regs := regs0
    nextPc := pc }

/-- States reachable by the RV64 6-stage pipeline under arbitrary
environments. -/
inductive Reachable : P64State → Prop where
  | init : ∀ pc regs0, Reachable (initState pc regs0)
  | step : ∀ {s} (env : P64Env), Reachable s → Reachable (step env s).1

/-- Environment whose instruction bus always returns the word
0x00002023 (sw x0, 0(x0)), used to drive one store through the whole
pipeline. -/
def swEnv : P64Env :=
  { fetch := fun _ => some 0x00002023
    load32 := fun _ _ => 0
    load64 := fun _ _ => 0
    dmaInFlight := false }

/-- Six cycles of the pipeline from the construction state under swEnv:
exactly enough for the first store to reach the commit stage and
retire. -/
def swRun6 : P64State :=
  (step swEnv (step swEnv (step swEnv (step swEnv (step swEnv
    (step swEnv (initState 0 (fun _ => 0))).1).1).1).1).1).1

end P64

/-! ## RV32 6-stage pipeline (src/src/CPU_P32_6_Cycle.cpp)

This variant (IF, ID, IS, EX, MEM, WB) has no reorder buffer and no
store buffer; stores go to the bus in the MEM stage.  The stages
relevant to the claims are modelled: IF (its DMA wait loop), EX (ALU,
branches, ECALL handling) and MEM (loads and the store writes). -/

/-- IS to EX latch of the RV32 6-stage pipeline. -/
structure RV32IsExLatch where
  pc : Nat := 0
  rs1val : Nat := 0
  rs2val : Nat := 0
  imm : Int := 0
  rd : Nat := 0
  opcode : Nat := 0
  funct3 : Nat := 0
  funct7 : Nat := 0
  valid : Bool := false
deriving Repr

/-- EX to MEM latch of the RV32 6-stage pipeline. -/
structure RV32ExMemLatch where
  pc : Nat := 0
  aluResult : Nat := 0
  storeData : Nat := 0
  rd : Nat := 0
  funct3 : Nat := 0
  memRead : Bool := false
  memWrite : Bool := false
  branchTaken : Bool := false
  branchTarget : Nat := 0
  valid : Bool := false
deriving Repr

/-- MEM to WB latch of the RV32 6-stage pipeline. -/
structure RV32MemWbLatch where
  result : Nat := 0
  rd : Nat := 0
  regWrite : Bool := false
  valid : Bool := false
deriving Repr

/-- Side effects of one RV32 EX_stage invocation: an sc_stop request
(ECALL exit), the bytes printed by the sys_write ECALL, and a PC
redirect with pipeline flush. -/
structure RV32ExEffects where
  stop : Bool := false
  out : List Nat := []
  redirectValid : Bool := false
  redirectTarget : Nat := 0
  flush : Bool := false
deriving Repr

namespace P32

/-- CPURV32P6_Cycle::EX_stage.  regs is the register bank, load the
data bus (MemoryInterface::readDataMem, uint32_t result), l the is_ex
latch contents. -/
def exStage (regs : Nat → Nat) (load : Nat → Nat → Nat) (l : RV32IsExLatch) :
    RV32ExMemLatch × RV32ExEffects :=
  if !l.valid then ({ valid := false }, {})
  else
    let z : Nat × Bool × Bool × Bool × Nat × RV32ExEffects :=
      match l.opcode with
      | 0x33 =>
          let result :=
            match l.funct3 with
            | 0x0 => if l.funct7 = 0x20 then u32 (l.rs1val + (2 ^ 32 - u32 l.rs2val))
                     else u32 (l.rs1val + l.rs2val)
            | 0x1 => u32 (l.rs1val <<< (l.rs2val &&& 0x1F))
            | 0x2 => if toI32 l.rs1val < toI32 l.rs2val then 1 else 0
            | 0x3 => if u32 l.rs1val < u32 l.rs2val then 1 else 0
            | 0x4 => u32 (l.rs1val ^^^ l.rs2val)
            | 0x5 => if l.funct7 = 0x20 then ofI32 (sar (toI32 l.rs1val) (l.rs2val &&& 0x1F))
                     else u32 (u32 l.rs1val >>> (l.rs2val &&& 0x1F))
            | 0x6 => u32 (l.rs1val ||| l.rs2val)
            | 0x7 => u32 (l.rs1val &&& l.rs2val)
            | _ => 0
          (result, false, false, false, 0, {})
      | 0x13 =>
          let result :=
            match l.funct3 with
            | 0x0 => addImm32 l.rs1val l.imm
            | 0x2 => if toI32 l.rs1val < l.imm then 1 else 0
            | 0x3 => if u32 l.rs1val < ofI32 l.imm then 1 else 0
            | 0x4 => u32 (l.rs1val ^^^ ofI32 l.imm)
            | 0x6 => u32 (l.rs1val ||| ofI32 l.imm)
            | 0x7 => u32 (l.rs1val &&& ofI32 l.imm)
            | 0x1 => u32 (l.rs1val <<< (ofI32 l.imm &&& 0x1F))
            | 0x5 => if ofI32 l.imm &&& 0x400 ≠ 0 then
                       ofI32 (sar (toI32 l.rs1val) (ofI32 l.imm &&& 0x1F))
                     else u32 (u32 l.rs1val >>> (ofI32 l.imm &&& 0x1F))
            | _ => 0
          (result, false, false, false, 0, {})
      | 0x03 => (addImm32 l.rs1val l.imm, true, false, false, 0, {})
      | 0x23 => (addImm32 l.rs1val l.imm, false, true, false, 0, {})
      | 0x63 =>
          let target := addImm32 l.pc l.imm
          let taken : Bool :=
            match l.funct3 with
            | 0x0 => u32 l.rs1val == u32 l.rs2val
            | 0x1 => u32 l.rs1val != u32 l.rs2val
            | 0x4 => decide (toI32 l.rs1val < toI32 l.rs2val)
            | 0x5 => decide (toI32 l.rs2val ≤ toI32 l.rs1val)
            | 0x6 => decide (u32 l.rs1val < u32 l.rs2val)
            | 0x7 => decide (u32 l.rs2val ≤ u32 l.rs1val)
            | _ => false
          (0, false, false, taken, target,
            if taken then { redirectValid := true, redirectTarget := target, flush := true }
            else {})
      | 0x6F =>
          (u32 (l.pc + 4), false, false, false, 0,
            { redirectValid := true, redirectTarget := addImm32 l.pc l.imm, flush := true })
      | 0x67 =>
          (u32 (l.pc + 4), false, false, false, 0,
            { redirectValid := true
              redirectTarget := addImm32 l.rs1val l.imm &&& 0xFFFFFFFE
              flush := true })
      | 0x37 => (ofI32 l.imm, false, false, false, 0, {})
      | 0x17 => (addImm32 l.pc l.imm, false, false, false, 0, {})
      | 0x73 =>
          if l.funct3 = 0 ∧ l.imm = 0 then
            let syscallNum := getReg regs 17
            if syscallNum = 93 ∨ syscallNum = 1 then
              (0, false, false, false, 0, { stop := true })
            else if syscallNum = 64 then
              let fd := getReg regs 10
              let ptr := getReg regs 11
              let len := getReg regs 12
              if fd = 1 then
                (0, false, false, false, 0,
                  { out := (List.range len).map fun i => u8 (load (u32 (ptr + i)) 1) })
              else (0, false, false, false, 0, {})
            else (0, false, false, false, 0, {})
          else (0, false, false, false, 0, {})
      | _ => (0, false, false, false, 0, {})
    ({ pc := l.pc
       aluResult := z.1
       storeData := l.rs2val
       rd := l.rd
       funct3 := l.funct3
       memRead := z.2.1
       memWrite := z.2.2.1
       branchTaken := z.2.2.2.1
       branchTarget := z.2.2.2.2.1
       valid := true }, z.2.2.2.2.2)

/-- A data-bus write issued by the RV32 MEM stage via
MemoryInterface::writeDataMem. -/
structure MemOp where
  addr : Nat
  data : Nat
  size : Nat
deriving DecidableEq, Repr

/-- CPURV32P6_Cycle::MEM_stage: produces the mem_wb latch and the list
of data-bus writes issued (stores are written to the bus here, in the
MEM stage). -/
def memStage (load : Nat → Nat → Nat) (l : RV32ExMemLatch) :
    RV32MemWbLatch × List MemOp :=
  if !l.valid then ({ valid := false }, [])
  else
    let result :=
      if l.memRead then
        match l.funct3 with
        | 0x0 => ofI32 (if u8 (load l.aluResult 1) < 2 ^ 7 then (u8 (load l.aluResult 1) : Int)
                   else (u8 (load l.aluResult 1) : Int) - 2 ^ 8)
        | 0x1 => ofI32 (if u32 (load l.aluResult 2) % 2 ^ 16 < 2 ^ 15 then
                   ((u32 (load l.aluResult 2) % 2 ^ 16 : Nat) : Int)
                   else ((u32 (load l.aluResult 2) % 2 ^ 16 : Nat) : Int) - 2 ^ 16)
        | 0x2 => u32 (load l.aluResult 4)
        | 0x4 => u32 (load l.aluResult 1)
        | 0x5 => u32 (load l.aluResult 2)
        | _ => l.aluResult
      else l.aluResult
    let writes : List MemOp :=
      if l.memRead then []
      else if l.memWrite then
        match l.funct3 with
        | 0x0 => [⟨l.aluResult, l.storeData, 1⟩]
        | 0x1 => [⟨l.aluResult, l.storeData, 2⟩]
        | 0x2 => [⟨l.aluResult, l.storeData, 4⟩]
        | _ => []
      else []
    ({ result := result
       rd := l.rd
       regWrite := l.rd ≠ 0 && !l.memWrite
       valid := true }, writes)

/-- The DMA wait loop at the top of CPURV32P6_Cycle::IF_stage: starting
at cycle t, wait one clock edge at a time while DMA::is_in_flight() is
true.  Returns the cycle at which the stage proceeds to fetch, or none
if the flag stays set for fuel cycles (the code would then still be
spinning). -/
def ifWaitDMA (dma : Nat → Bool) : Nat → Nat → Option Nat
  | _, 0 => none
  | t, fuel + 1 => if dma t then ifWaitDMA dma (t + 1) fuel else some t

end P32

/-! ## Specification-side definitions -/

/-- An address that BusCtrl::b_transport routes to main memory: it hits
neither of the two to-host checks, none of the peripheral ranges, and
none of the timer/trace word addresses. -/
def routedToMemory (addr : Nat) : Prop :=
  addr / 4 ≠ TO_HOST_ADDRESS / 4 ∧
  addr / 4 ≠ 0x20000400 ∧
  ¬(UART0_BASE_ADDRESS ≤ addr ∧ addr < UART0_BASE_ADDRESS + 0x100) ∧
  ¬(CLINT_BASE_ADDRESS ≤ addr ∧ addr < CLINT_BASE_ADDRESS + 0x10000) ∧
  ¬(PLIC_BASE_ADDRESS ≤ addr ∧ addr < PLIC_BASE_ADDRESS + 0x400000) ∧
  ¬(DMA_BASE_ADDRESS ≤ addr ∧ addr < DMA_BASE_ADDRESS + 0x1000) ∧
  ¬(SYSCALL_BASE_ADDRESS ≤ addr ∧ addr < SYSCALL_BASE_ADDRESS + 0x1000) ∧
  addr / 4 ≠ TIMER_MEMORY_ADDRESS_HI / 4 ∧
  addr / 4 ≠ TIMER_MEMORY_ADDRESS_LO / 4 ∧
  addr / 4 ≠ TIMERCMP_MEMORY_ADDRESS_HI / 4 ∧
  addr / 4 ≠ TIMERCMP_MEMORY_ADDRESS_LO / 4 ∧
  addr / 4 ≠ TRACE_MEMORY_ADDRESS / 4

instance (addr : Nat) : Decidable (routedToMemory addr) := by
  unfold routedToMemory; infer_instance

namespace Rob

/-- States of a ReorderBuffer<32> reachable by any sequence of allocate,
complete and retire operations. -/
inductive Reach : Rob → Prop where
  | init : Reach Rob.init
  | allocate : ∀ {r}, Reach r → Reach r.allocate.1
  | complete : ∀ {r}, Reach r → ∀ idx res rd, Reach (r.complete idx res rd)
  | retire : ∀ {r}, Reach r → Reach r.retire

/-- Structural invariant of the circular buffer. -/
def WF (r : Rob) : Prop :=
  r.head < 32 ∧ r.tail = (r.head + r.count) % 32 ∧ r.count ≤ 32

/-- The queue of live entry indices in allocation order, oldest first. -/
def absQueue (r : Rob) : List Nat :=
  (List.range r.count).map fun k => (r.head + k) % 32

/-- Iterated allocation from the initial state. -/
def allocN : Nat → Rob
  | 0 => Rob.init
  | n + 1 => (allocN n).allocate.1

end Rob

namespace P64

/-- The data-bus writes that one Commit_stage invocation issues: a
single store write when the ROB head is ready, is a store, and has a
matching store-buffer entry; nothing otherwise. -/
def commitWrites (s : P64State) : List MemWrite :=
  if s.rob.headReady then
    if (s.rob.getHead).isStore then
      match s.storeBuffer.commitStore ((s.rob.getHeadIndex : Nat) : Int) with
      | some (_, addr, data, size) =>
          if size = 8 then [⟨addr, u64 data, 8, (s.rob.getHead).ghostSerial⟩]
          else [⟨addr, u32 data, size, (s.rob.getHead).ghostSerial⟩]
      | none => []
    else []
  else []

/-- Physical ROB index of the most recently allocated live entry
(meaningful when 1 ≤ count). -/
def lastIdx (r : Rob) : Nat := (r.head + (r.count - 1)) % 32

/-- Inductive invariant of the RV64 6-stage pipeline at cycle
boundaries.  Ghost fields relate the scoreboard, the ROB, the store
buffer and the write trace to the program order of issued
instructions. -/
structure PInv (s : P64State) : Prop where
  headLt : s.rob.head < 32
  tailEq : s.rob.tail = (s.rob.head + s.rob.count) % 32
  countLe : s.rob.count ≤ 2
  liveValid1 : 1 ≤ s.rob.count → (s.rob.entries s.rob.head).valid = true
  liveValid2 : s.rob.count = 2 → (s.rob.entries ((s.rob.head + 1) % 32)).valid = true
  validChar : ∀ j, (s.rob.entries j).valid = true →
      (1 ≤ s.rob.count ∧ j = s.rob.head) ∨ (s.rob.count = 2 ∧ j = (s.rob.head + 1) % 32)
  pend2 : s.rob.count = 2 → s.issueExNext.valid = true
  pendChar : s.issueExNext.valid = true →
      1 ≤ s.rob.count ∧
      s.issueExNext.robIndex = ((lastIdx s.rob : Nat) : Int) ∧
      (s.rob.entries (lastIdx s.rob)).ready = false ∧
      (s.rob.entries (lastIdx s.rob)).ghostRd = s.issueExNext.rd ∧
      (s.rob.entries (lastIdx s.rob)).isStore = (s.issueExNext.opcode == 0x23)
  readyChar : ∀ j, (s.rob.entries j).valid = true → (s.rob.entries j).ready = false →
      s.issueExNext.valid = true ∧ j = lastIdx s.rob
  readyDest : ∀ j, (s.rob.entries j).valid = true → (s.rob.entries j).ready = true →
      (s.rob.entries j).destReg = (s.rob.entries j).ghostRd
  serialOrder : s.rob.count = 2 →
      (s.rob.entries s.rob.head).ghostSerial <
        (s.rob.entries ((s.rob.head + 1) % 32)).ghostSerial
  serialLt : ∀ j, (s.rob.entries j).valid = true →
      (s.rob.entries j).ghostSerial < s.serialCtr
  traceChain : List.Chain' (· < ·) (s.writeTrace.map MemWrite.ghostSerial)
  traceLtLive : ∀ w ∈ s.writeTrace, ∀ j, (s.rob.entries j).valid = true →
      w.ghostSerial < (s.rob.entries j).ghostSerial
  traceLtCtr : ∀ w ∈ s.writeTrace, w.ghostSerial < s.serialCtr
  sbSound : ∀ j, (s.storeBuffer.entries j).valid = true →
      ∃ i, (s.rob.entries i).valid = true ∧ (s.rob.entries i).isStore = true ∧
        (s.rob.entries i).ready = true ∧ (s.storeBuffer.entries j).robIndex = (i : Int)
  sbInj : ∀ j1 j2, (s.storeBuffer.entries j1).valid = true →
      (s.storeBuffer.entries j2).valid = true →
      (s.storeBuffer.entries j1).robIndex = (s.storeBuffer.entries j2).robIndex → j1 = j2
  sbComplete : ∀ i, (s.rob.entries i).valid = true → (s.rob.entries i).isStore = true →
      (s.rob.entries i).ready = true →
      ∃ j, j < 8 ∧ (s.storeBuffer.entries j).valid = true ∧
        (s.storeBuffer.entries j).robIndex = (i : Int)
  scoreboard0 : s.scoreboard 0 = false
  scoreboardChar : ∀ i, s.scoreboard i = true →
      ∃ j, (s.rob.entries j).valid = true ∧ (s.rob.entries j).ghostRd = i

/-- Mid-cycle invariant holding right after Commit_stage has run (the
retirement of the previous instruction leaves at most the pending
not-yet-executed instruction in the ROB, and an empty store buffer). -/
structure MidC (s : P64State) : Prop where
  headLt : s.rob.head < 32
  tailEq : s.rob.tail = (s.rob.head + s.rob.count) % 32
  countLe1 : s.rob.count ≤ 1
  pendIff : s.issueExReg.valid = true ↔ s.rob.count = 1
  pendChar : s.issueExReg.valid = true →
      s.issueExReg.robIndex = ((s.rob.head : Nat) : Int) ∧
      (s.rob.entries s.rob.head).valid = true ∧
      (s.rob.entries s.rob.head).ready = false ∧
      (s.rob.entries s.rob.head).ghostRd = s.issueExReg.rd ∧
      (s.rob.entries s.rob.head).isStore = (s.issueExReg.opcode == 0x23)
  validChar : ∀ j, (s.rob.entries j).valid = true → s.rob.count = 1 ∧ j = s.rob.head
  serialLt : ∀ j, (s.rob.entries j).valid = true →
      (s.rob.entries j).ghostSerial < s.serialCtr
  traceChain : List.Chain' (· < ·) (s.writeTrace.map MemWrite.ghostSerial)
  traceLtLive : ∀ w ∈ s.writeTrace, ∀ j, (s.rob.entries j).valid = true →
      w.ghostSerial < (s.rob.entries j).ghostSerial
  traceLtCtr : ∀ w ∈ s.writeTrace, w.ghostSerial < s.serialCtr
  sbInvalid : ∀ j, (s.storeBuffer.entries j).valid = false
  scoreboard0 : s.scoreboard 0 = false
  scoreboardChar : ∀ i, s.scoreboard i = true →
      ∃ j, (s.rob.entries j).valid = true ∧ (s.rob.entries j).ghostRd = i

/-- Mid-cycle invariant holding right after EX_stage has run (the
pending instruction, if any, has completed; a store has deposited its
entry in the store buffer). -/
structure ExC (s : P64State) : Prop where
  headLt : s.rob.head < 32
  tailEq : s.rob.tail = (s.rob.head + s.rob.count) % 32
  countLe1 : s.rob.count ≤ 1
  pendIff : s.issueExReg.valid = true ↔ s.rob.count = 1
  pendDone : s.issueExReg.valid = true →
      (s.rob.entries s.rob.head).valid = true ∧
      (s.rob.entries s.rob.head).ready = true ∧
      (s.rob.entries s.rob.head).ghostRd = s.issueExReg.rd ∧
      (s.rob.entries s.rob.head).destReg = s.issueExReg.rd ∧
      (s.rob.entries s.rob.head).isStore = (s.issueExReg.opcode == 0x23)
  validChar : ∀ j, (s.rob.entries j).valid = true → s.rob.count = 1 ∧ j = s.rob.head
  allReady : ∀ j, (s.rob.entries j).valid = true → (s.rob.entries j).ready = true
  readyDest : ∀ j, (s.rob.entries j).valid = true → (s.rob.entries j).ready = true →
      (s.rob.entries j).destReg = (s.rob.entries j).ghostRd
  serialLt : ∀ j, (s.rob.entries j).valid = true →
      (s.rob.entries j).ghostSerial < s.serialCtr
  traceChain : List.Chain' (· < ·) (s.writeTrace.map MemWrite.ghostSerial)
  traceLtLive : ∀ w ∈ s.writeTrace, ∀ j, (s.rob.entries j).valid = true →
      w.ghostSerial < (s.rob.entries j).ghostSerial
  traceLtCtr : ∀ w ∈ s.writeTrace, w.ghostSerial < s.serialCtr
  sbSound : ∀ j, (s.storeBuffer.entries j).valid = true →
      ∃ i, (s.rob.entries i).valid = true ∧ (s.rob.entries i).isStore = true ∧
        (s.rob.entries i).ready = true ∧ (s.storeBuffer.entries j).robIndex = (i : Int)
  sbInj : ∀ j1 j2, (s.storeBuffer.entries j1).valid = true →
      (s.storeBuffer.entries j2).valid = true →
      (s.storeBuffer.entries j1).robIndex = (s.storeBuffer.entries j2).robIndex → j1 = j2
  sbComplete : ∀ i, (s.rob.entries i).valid = true → (s.rob.entries i).isStore = true →
      (s.rob.entries i).ready = true →
      ∃ j, j < 8 ∧ (s.storeBuffer.entries j).valid = true ∧
        (s.storeBuffer.entries j).robIndex = (i : Int)
  scoreboard0 : s.scoreboard 0 = false
  scoreboardChar : ∀ i, s.scoreboard i = true →
      ∃ j, (s.rob.entries j).valid = true ∧ (s.rob.entries j).ghostRd = i

end P64

/-! ## Theorems -/

/-- C2 counterexample: the claim fails on the code in two ways.  A
transaction whose address is out of the memory extent is reported to
the initiator as OK, not ADDRESS_ERROR, because BusCtrl::b_transport
overwrites the response status after forwarding to memory; and a len = 8
transaction addressed to main memory does not succeed at the memory
target, which rejects any len > 4 with BURST_ERROR. -/
theorem C2_counterexample :
    (BusCtrl.b_transport 64 (fun _ => 0)
        { cmd := TlmCommand.read, addr := 64, data := [0, 0, 0, 0], len := 4, wid := 4,
          byteEnable := false, status := TlmStatus.incomplete }).trans.status =
      TlmStatus.ok ∧
    TlmStatus.ok ≠ TlmStatus.addressError ∧
    (Memory.b_transport 1024 (fun _ => 0)
        { cmd := TlmCommand.read, addr := 0, data := List.replicate 8 0, len := 8, wid := 8,
          byteEnable := false, status := TlmStatus.incomplete }).2.status =
      TlmStatus.burstError := by
  refine ⟨?_, by decide, ?_⟩ <;> rfl

/-- C2 (amended): the memory target returns ADDRESS_ERROR when addr is
outside the extent or addr+len overflows it, BYTE_ENABLE_ERROR when a
byte-enable pointer is attached, BURST_ERROR when len > 4 or the
streaming width is smaller than len, and OK otherwise; but the bus
fabric overwrites the status of every memory-routed transaction with OK
before returning to the initiator, so neither ADDRESS_ERROR nor
BURST_ERROR is ever observed by the initiator. -/
theorem C2_amended :
    (∀ SIZE (mem : Nat → Nat) (t : TlmTrans), (SIZE ≤ t.addr ∨ SIZE < t.addr + t.len) →
      (Memory.b_transport SIZE mem t).2.status = TlmStatus.addressError) ∧
    (∀ SIZE (mem : Nat → Nat) (t : TlmTrans), t.addr < SIZE → t.addr + t.len ≤ SIZE →
      t.byteEnable = true →
      (Memory.b_transport SIZE mem t).2.status = TlmStatus.byteEnableError) ∧
    (∀ SIZE (mem : Nat → Nat) (t : TlmTrans), t.addr < SIZE → t.addr + t.len ≤ SIZE →
      t.byteEnable = false → (4 < t.len ∨ t.wid < t.len) →
      (Memory.b_transport SIZE mem t).2.status = TlmStatus.burstError) ∧
    (∀ SIZE (mem : Nat → Nat) (t : TlmTrans), t.addr < SIZE → t.addr + t.len ≤ SIZE →
      t.byteEnable = false → t.len ≤ 4 → t.len ≤ t.wid →
      (Memory.b_transport SIZE mem t).2.status = TlmStatus.ok) ∧
    (∀ SIZE (mem : Nat → Nat) (t : TlmTrans),
      (BusCtrl.b_transport SIZE mem t).target = BusTarget.memory →
      (BusCtrl.b_transport SIZE mem t).trans.status = TlmStatus.ok) := by
  refine ⟨?_, ?_, ?_, ?_, ?_⟩
  · intro SIZE mem t h
    unfold Memory.b_transport
    rw [if_pos (by omega)]
  · intro SIZE mem t h1 h2 h3
    unfold Memory.b_transport
    rw [if_neg (by omega), if_pos h3]
  · intro SIZE mem t h1 h2 h3 h4
    unfold Memory.b_transport
    rw [if_neg (by omega), if_neg (by simp [h3]), if_pos h4]
  · intro SIZE mem t h1 h2 h3 h4 h5
    unfold Memory.b_transport
    rw [if_neg (by omega), if_neg (by simp [h3]), if_neg (by omega)]
    cases t.cmd <;> rfl
  · intro SIZE mem t
    simp only [BusCtrl.b_transport]
    split
    · intro h; simp_all
    split
    · intro h; simp_all
    split
    · intro h; simp_all
    split
    · intro h; simp_all
    split
    · intro h; simp_all
    split
    · intro h; simp_all
    split
    · intro h; simp_all
    split
    · intro h; simp_all
    split
    · intro h; simp_all
    intro _; rfl

/-- C2 witness: the amended statements applied at concrete inputs. -/
theorem C2_witness :
    (Memory.b_transport 8 (fun _ => 0)
        { cmd := TlmCommand.read, addr := 6, data := [0, 0, 0, 0], len := 4, wid := 4,
          byteEnable := false, status := TlmStatus.incomplete }).2.status =
      TlmStatus.addressError ∧
    (Memory.b_transport 1024 (fun _ => 0)
        { cmd := TlmCommand.read, addr := 0, data := [0, 0, 0, 0], len := 4, wid := 4,
          byteEnable := true, status := TlmStatus.incomplete }).2.status =
      TlmStatus.byteEnableError ∧
    (Memory.b_transport 1024 (fun _ => 0)
        { cmd := TlmCommand.write, addr := 0, data := List.replicate 8 7, len := 8, wid := 8,
          byteEnable := false, status := TlmStatus.incomplete }).2.status =
      TlmStatus.burstError ∧
    (Memory.b_transport 1024 (fun _ => 0)
        { cmd := TlmCommand.write, addr := 0, data := [7, 0, 0, 0], len := 4, wid := 4,
          byteEnable := false, status := TlmStatus.incomplete }).2.status =
      TlmStatus.ok ∧
    (BusCtrl.b_transport 64 (fun _ => 0)
        { cmd := TlmCommand.read, addr := 64, data := [0, 0, 0, 0], len := 4, wid := 4,
          byteEnable := false, status := TlmStatus.incomplete }).trans.status =
      TlmStatus.ok :=
  ⟨C2_amended.1 8 (fun _ => 0) _ (by norm_num),
   C2_amended.2.1 1024 (fun _ => 0) _ (by norm_num) (by norm_num) rfl,
   C2_amended.2.2.1 1024 (fun _ => 0) _ (by norm_num) (by norm_num) rfl (by norm_num),
   C2_amended.2.2.2.1 1024 (fun _ => 0) _ (by norm_num) (by norm_num) rfl (by norm_num)
     (by norm_num),
   C2_amended.2.2.2.2 64 (fun _ => 0) _ (by rfl)⟩

/-- C3 counterexample: a Read addressed to the legacy to-host word
0x9000_0000 stops the simulation, although the claim states that no
Read to either to-host address stops it (BusCtrl::b_transport performs
the legacy check before looking at the command). -/
theorem C3_counterexample :
    (BusCtrl.b_transport 1024 (fun _ => 0)
        { cmd := TlmCommand.read, addr := 0x90000000, data := [0, 0, 0, 0], len := 4,
          wid := 4, byteEnable := false, status := TlmStatus.incomplete }).stop = true := by
  rfl

/-- C3 (amended): the bus fabric raises end-of-simulation exactly when
the word address equals the legacy to-host word 0x9000_0000 (any
command, Read included), or the transaction is a Write to the word
0x8000_1000 carrying at least 4 data bytes whose little-endian word
value is non-zero.  In particular a Write of zero to 0x8000_1000 does
not stop, and a Read to 0x8000_1000 does not stop, but a Read to
0x9000_0000 does. -/
theorem C3_amended : ∀ SIZE (mem : Nat → Nat) (t : TlmTrans),
    (BusCtrl.b_transport SIZE mem t).stop = true ↔
      (t.addr / 4 = 0x24000000 ∨
        (t.addr / 4 = 0x20000400 ∧ t.cmd = TlmCommand.write ∧ 4 ≤ t.len ∧
          leWord t.data ≠ 0)) := by
  intro SIZE mem t
  simp only [BusCtrl.b_transport]
  simp only [TO_HOST_ADDRESS, UART0_BASE_ADDRESS, CLINT_BASE_ADDRESS, PLIC_BASE_ADDRESS,
    DMA_BASE_ADDRESS, SYSCALL_BASE_ADDRESS, TIMER_MEMORY_ADDRESS_HI, TIMER_MEMORY_ADDRESS_LO,
    TIMERCMP_MEMORY_ADDRESS_HI, TIMERCMP_MEMORY_ADDRESS_LO, TRACE_MEMORY_ADDRESS]
  norm_num
  split
  · simp_all
  split
  · simp_all
  split
  · simp_all
  split
  · simp_all
  split
  · simp_all
  split
  · simp_all
  split
  · simp_all
  split
  · simp_all
  split
  · simp_all
  · simp_all

/-- C4 counterexample: when the bus read of a started transfer returns a
non-OK status, DMA::start_transfer returns without clearing bit 0 of
the control register (it only clears in_flight_), contradicting the
claim that any non-OK response clears the control bit. -/
theorem C4_counterexample :
    ((DMA.b_transport ⟨0x100, 0x200, 8, 0, false⟩
        { cmd := TlmCommand.write, addr := 0x0C, data := [1, 0, 0, 0], len := 4, wid := 4,
          byteEnable := false, status := TlmStatus.incomplete }
        TlmStatus.addressError TlmStatus.ok).1.control &&& 1) = 1 ∧
    (DMA.b_transport ⟨0x100, 0x200, 8, 0, false⟩
        { cmd := TlmCommand.write, addr := 0x0C, data := [1, 0, 0, 0], len := 4, wid := 4,
          byteEnable := false, status := TlmStatus.incomplete }
        TlmStatus.addressError TlmStatus.ok).1.inFlight = false := by
  exact ⟨rfl, rfl⟩

/-- C4 (amended): writing a word with bit 0 set to the control register
sets control to that word and starts a transfer.  When len is non-zero
and the bus read returns OK, the engine issues one bus read of len
bytes at src followed by one bus write of len bytes to dst (whose
status is never examined), clears bit 0 of control and clears
in_flight; when the bus read returns non-OK the transfer aborts with
in_flight cleared but bit 0 of control left set; when len = 0 nothing
is issued and control keeps the written value. -/
theorem C4_amended :
    (∀ (s : DMAState) rs ws, s.len ≠ 0 → rs = TlmStatus.ok →
      DMA.start_transfer s rs ws =
        ({ s with control := s.control &&& 0xFFFFFFFE, inFlight := false },
          [DMABusOp.busRead s.src s.len, DMABusOp.busWrite s.dst s.len])) ∧
    (∀ (s : DMAState) rs ws, s.len ≠ 0 → rs ≠ TlmStatus.ok →
      DMA.start_transfer s rs ws =
        ({ s with inFlight := false }, [DMABusOp.busRead s.src s.len])) ∧
    (∀ (s : DMAState) rs ws, s.len = 0 → DMA.start_transfer s rs ws = (s, [])) ∧
    (∀ (s : DMAState) rs w1 w2, DMA.start_transfer s rs w1 = DMA.start_transfer s rs w2) ∧
    (∀ (s : DMAState) (t : TlmTrans) rs ws, t.len = 4 → t.cmd = TlmCommand.write →
      t.addr = 0x0C → leWord t.data &&& 1 ≠ 0 →
      (DMA.b_transport s t rs ws).1 =
        (DMA.start_transfer { s with control := leWord t.data } rs ws).1 ∧
      (DMA.b_transport s t rs ws).2.2 =
        (DMA.start_transfer { s with control := leWord t.data } rs ws).2) := by
  refine ⟨?_, ?_, ?_, ?_, ?_⟩
  · intro s rs ws h1 h2
    unfold DMA.start_transfer
    rw [if_neg h1, if_neg (by simp [h2])]
  · intro s rs ws h1 h2
    unfold DMA.start_transfer
    rw [if_neg h1, if_pos h2]
  · intro s rs ws h
    unfold DMA.start_transfer
    rw [if_pos h]
  · intro s rs w1 w2
    unfold DMA.start_transfer
    split
    · rfl
    split <;> rfl
  · intro s t rs ws h1 h2 h3 h4
    unfold DMA.b_transport
    rw [if_neg (by omega)]
    simp only [h2, h3]
    simp [h1, h2, h4]
    rw [if_pos (by rw [Nat.and_one_is_mod] at h4; omega)]
    exact ⟨rfl, rfl⟩

/-- C4 witness: the amended statements applied at concrete inputs. -/
theorem C4_witness :
    DMA.start_transfer ⟨0x100, 0x200, 8, 3, true⟩ TlmStatus.ok TlmStatus.ok =
      (⟨0x100, 0x200, 8, 2, false⟩,
        [DMABusOp.busRead 0x100 8, DMABusOp.busWrite 0x200 8]) ∧
    DMA.start_transfer ⟨0x100, 0x200, 8, 3, true⟩ TlmStatus.burstError TlmStatus.ok =
      (⟨0x100, 0x200, 8, 3, false⟩, [DMABusOp.busRead 0x100 8]) ∧
    DMA.start_transfer ⟨0x100, 0x200, 0, 1, false⟩ TlmStatus.ok TlmStatus.ok =
      (⟨0x100, 0x200, 0, 1, false⟩, []) ∧
    DMA.start_transfer ⟨1, 2, 4, 1, false⟩ TlmStatus.ok TlmStatus.addressError =
      DMA.start_transfer ⟨1, 2, 4, 1, false⟩ TlmStatus.ok TlmStatus.ok ∧
    (DMA.b_transport ⟨0, 0, 4, 0, false⟩
        { cmd := TlmCommand.write, addr := 0x0C, data := [1, 0, 0, 0], len := 4, wid := 4,
          byteEnable := false, status := TlmStatus.incomplete }
        TlmStatus.ok TlmStatus.ok).1 =
      (DMA.start_transfer ⟨0, 0, 4, 1, false⟩ TlmStatus.ok TlmStatus.ok).1 := by
  refine ⟨?_, ?_, ?_, ?_, ?_⟩
  · have h := C4_amended.1 ⟨0x100, 0x200, 8, 3, true⟩ TlmStatus.ok TlmStatus.ok
      (by norm_num) rfl
    rw [h]; rfl
  · have h := C4_amended.2.1 ⟨0x100, 0x200, 8, 3, true⟩ TlmStatus.burstError TlmStatus.ok
      (by norm_num) (by decide)
    rw [h]
  · exact C4_amended.2.2.1 ⟨0x100, 0x200, 0, 1, false⟩ TlmStatus.ok TlmStatus.ok rfl
  · exact C4_amended.2.2.2.1 ⟨1, 2, 4, 1, false⟩ TlmStatus.ok TlmStatus.addressError
      TlmStatus.ok
  · have h := (C4_amended.2.2.2.2 ⟨0, 0, 4, 0, false⟩
      { cmd := TlmCommand.write, addr := 0x0C, data := [1, 0, 0, 0], len := 4, wid := 4,
        byteEnable := false, status := TlmStatus.incomplete }
      TlmStatus.ok TlmStatus.ok rfl rfl rfl (by decide)).1
    rw [h]
    rfl

/-- Reading back exactly the bytes just written into the backing
store. -/
theorem memRead_memWrite (mem : Nat → Nat) (data : List Nat) (addr len : Nat)
    (h : data.length = len) :
    Memory.memRead (Memory.memWrite mem addr data len) addr len = data := by
  unfold Memory.memRead Memory.memWrite
  apply List.ext_getElem
  · simp [h]
  · intro i h1 h2
    simp only [List.getElem_map, List.getElem_range, List.length_map, List.length_range] at *
    rw [if_pos (by omega)]
    have hi : addr + i - addr = i := by omega
    rw [hi, List.getD_eq_getElem data 0 (by omega)]

/-- A transaction whose address satisfies routedToMemory is forwarded to
main memory and its response status is then overwritten with OK. -/
theorem bus_memory_route (SIZE : Nat) (mem : Nat → Nat) (t : TlmTrans)
    (h : routedToMemory t.addr) :
    BusCtrl.b_transport SIZE mem t =
      ⟨(Memory.b_transport SIZE mem t).1,
        { (Memory.b_transport SIZE mem t).2 with status := TlmStatus.ok }, false,
        BusTarget.memory⟩ := by
  obtain ⟨h1, h2, h3, h4, h5, h6, h7, h8, h9, h10, h11, h12⟩ := h
  simp only [BusCtrl.b_transport]
  rw [if_neg h1, if_neg (fun hh => h2 hh.1), if_neg h3, if_neg h4, if_neg h5, if_neg h6,
    if_neg h7, if_neg (by tauto), if_neg h12]

/-- Behaviour of Memory::b_transport on an in-range write with a legal
length. -/
theorem memory_write_ok (SIZE : Nat) (mem : Nat → Nat) (t : TlmTrans)
    (hc : t.cmd = TlmCommand.write) (h1 : t.addr < SIZE) (h2 : t.addr + t.len ≤ SIZE)
    (h3 : t.byteEnable = false) (h4 : t.len ≤ 4) (h5 : t.len ≤ t.wid) :
    Memory.b_transport SIZE mem t =
      (Memory.memWrite mem t.addr t.data t.len, { t with status := TlmStatus.ok }) := by
  unfold Memory.b_transport
  rw [if_neg (by omega), if_neg (by simp [h3]), if_neg (by omega)]
  rw [hc]

/-- Behaviour of Memory::b_transport on an in-range read with a legal
length. -/
theorem memory_read_ok (SIZE : Nat) (mem : Nat → Nat) (t : TlmTrans)
    (hc : t.cmd = TlmCommand.read) (h1 : t.addr < SIZE) (h2 : t.addr + t.len ≤ SIZE)
    (h3 : t.byteEnable = false) (h4 : t.len ≤ 4) (h5 : t.len ≤ t.wid) :
    Memory.b_transport SIZE mem t =
      (mem, { t with data := Memory.memRead mem t.addr t.len, status := TlmStatus.ok }) := by
  unfold Memory.b_transport
  rw [if_neg (by omega), if_neg (by simp [h3]), if_neg (by omega)]
  rw [hc]

/-- For an address that the bus routes to main memory and that lies
inside the memory extent, a bus write of a legal width (len ≤ 4)
followed by a bus read of the same address and the same width returns
the written bytes (and both transactions come back OK). -/
theorem bus_roundtrip_le4 :
    ∀ (SIZE : Nat) (mem : Nat → Nat) (addr len wid1 wid2 : Nat)
      (data buf : List Nat) (st1 st2 : TlmStatus),
    routedToMemory addr → addr < SIZE → addr + len ≤ SIZE → len ≤ 4 → len ≤ wid1 →
    len ≤ wid2 → data.length = len →
    (BusCtrl.b_transport SIZE
        (BusCtrl.b_transport SIZE mem
          { cmd := TlmCommand.write, addr := addr, data := data, len := len, wid := wid1,
            byteEnable := false, status := st1 }).mem
        { cmd := TlmCommand.read, addr := addr, data := buf, len := len, wid := wid2,
          byteEnable := false, status := st2 }).trans.data = data ∧
    (BusCtrl.b_transport SIZE
        (BusCtrl.b_transport SIZE mem
          { cmd := TlmCommand.write, addr := addr, data := data, len := len, wid := wid1,
            byteEnable := false, status := st1 }).mem
        { cmd := TlmCommand.read, addr := addr, data := buf, len := len, wid := wid2,
          byteEnable := false, status := st2 }).trans.status = TlmStatus.ok ∧
    (BusCtrl.b_transport SIZE mem
        { cmd := TlmCommand.write, addr := addr, data := data, len := len, wid := wid1,
          byteEnable := false, status := st1 }).trans.status = TlmStatus.ok := by
  intro SIZE mem addr len wid1 wid2 data buf st1 st2 hroute h1 h2 h3 h4 h5 hlen
  rw [bus_memory_route SIZE mem _ hroute,
    memory_write_ok SIZE mem _ rfl h1 h2 rfl h3 h4]
  rw [bus_memory_route SIZE _ _ hroute,
    memory_read_ok SIZE _ _ rfl h1 h2 rfl h3 h5]
  refine ⟨?_, rfl, rfl⟩
  exact memRead_memWrite mem data addr len hlen

/-- C8 counterexample: at width 8 — a width in the claim's scope, and
the width the RV64 core issues for sd/ld — the round-trip fails: the
bus write of [1..8] to main-memory address 0x1000_2000 is reported OK
to the initiator, yet the following bus read of the same address and
width returns the stale all-zero buffer, not the written bytes (the
memory target rejects len > 4 with BURST_ERROR without copying, and the
bus fabric masks the status to OK). -/
theorem C8_counterexample :
    (BusCtrl.b_transport 0x40000000 (fun _ => 0)
        { cmd := TlmCommand.write, addr := 0x10002000, data := [1, 2, 3, 4, 5, 6, 7, 8],
          len := 8, wid := 8, byteEnable := false,
          status := TlmStatus.incomplete }).trans.status = TlmStatus.ok ∧
    (BusCtrl.b_transport 0x40000000
        (BusCtrl.b_transport 0x40000000 (fun _ => 0)
          { cmd := TlmCommand.write, addr := 0x10002000, data := [1, 2, 3, 4, 5, 6, 7, 8],
            len := 8, wid := 8, byteEnable := false,
            status := TlmStatus.incomplete }).mem
        { cmd := TlmCommand.read, addr := 0x10002000, data := [0, 0, 0, 0, 0, 0, 0, 0],
          len := 8, wid := 8, byteEnable := false,
          status := TlmStatus.incomplete }).trans.data = [0, 0, 0, 0, 0, 0, 0, 0] ∧
    ([0, 0, 0, 0, 0, 0, 0, 0] : List Nat) ≠ [1, 2, 3, 4, 5, 6, 7, 8] := by
  refine ⟨?_, ?_, by decide⟩ <;> rfl

/-- C8 (amended): for an address routed to main memory and inside the
memory extent, a bus write followed by a bus read of the same address
and width returns the written value for the legal widths (len ≤ 4, len
not above the streaming width), both transactions reporting OK; at
width 8 the memory target rejects the transaction with BURST_ERROR, the
bus fabric masks the status to OK, the backing store is left unmodified
and a read returns its buffer unchanged, so the round-trip fails
although the initiator sees OK on both transactions. -/
theorem C8_amended :
    (∀ (SIZE : Nat) (mem : Nat → Nat) (addr len wid1 wid2 : Nat)
      (data buf : List Nat) (st1 st2 : TlmStatus),
      routedToMemory addr → addr < SIZE → addr + len ≤ SIZE → len ≤ 4 → len ≤ wid1 →
      len ≤ wid2 → data.length = len →
      (BusCtrl.b_transport SIZE
          (BusCtrl.b_transport SIZE mem
            { cmd := TlmCommand.write, addr := addr, data := data, len := len, wid := wid1,
              byteEnable := false, status := st1 }).mem
          { cmd := TlmCommand.read, addr := addr, data := buf, len := len, wid := wid2,
            byteEnable := false, status := st2 }).trans.data = data ∧
      (BusCtrl.b_transport SIZE
          (BusCtrl.b_transport SIZE mem
            { cmd := TlmCommand.write, addr := addr, data := data, len := len, wid := wid1,
              byteEnable := false, status := st1 }).mem
          { cmd := TlmCommand.read, addr := addr, data := buf, len := len, wid := wid2,
            byteEnable := false, status := st2 }).trans.status = TlmStatus.ok ∧
      (BusCtrl.b_transport SIZE mem
          { cmd := TlmCommand.write, addr := addr, data := data, len := len, wid := wid1,
            byteEnable := false, status := st1 }).trans.status = TlmStatus.ok) ∧
    (∀ SIZE (mem : Nat → Nat) (t : TlmTrans), routedToMemory t.addr → t.len = 8 →
      (BusCtrl.b_transport SIZE mem t).mem = mem ∧
      (BusCtrl.b_transport SIZE mem t).trans.data = t.data ∧
      (BusCtrl.b_transport SIZE mem t).trans.status = TlmStatus.ok) := by
  refine ⟨bus_roundtrip_le4, ?_⟩
  intro SIZE mem t hroute hlen
  rw [bus_memory_route SIZE mem t hroute]
  unfold Memory.b_transport
  have hb : 4 < t.len ∨ t.wid < t.len := Or.inl (by omega)
  split_ifs with h1 h2 h3 <;>
    first
    | exact ⟨rfl, rfl, rfl⟩
    | exact absurd hb h3

/-- C8 witness: the amended theorem applied at concrete inputs — the
4-byte round-trip of 0x7568 at 0x1000_2000 (scenario 4 of the spec)
returns the written bytes, and an 8-byte transaction to the same
address leaves the memory untouched while reporting OK. -/
theorem C8_witness :
    (BusCtrl.b_transport 0x40000000
        (BusCtrl.b_transport 0x40000000 (fun _ => 0)
          { cmd := TlmCommand.write, addr := 0x10002000, data := [0x68, 0x75, 0, 0],
            len := 4, wid := 4, byteEnable := false, status := TlmStatus.incomplete }).mem
        { cmd := TlmCommand.read, addr := 0x10002000, data := [0, 0, 0, 0], len := 4,
          wid := 4, byteEnable := false, status := TlmStatus.incomplete }).trans.data =
      [0x68, 0x75, 0, 0] ∧
    (BusCtrl.b_transport 0x40000000 (fun _ => 0)
        { cmd := TlmCommand.write, addr := 0x10002000, data := [1, 2, 3, 4, 5, 6, 7, 8],
          len := 8, wid := 8, byteEnable := false,
          status := TlmStatus.incomplete }).mem = (fun _ => 0) ∧
    (BusCtrl.b_transport 0x40000000 (fun _ => 0)
        { cmd := TlmCommand.write, addr := 0x10002000, data := [1, 2, 3, 4, 5, 6, 7, 8],
          len := 8, wid := 8, byteEnable := false,
          status := TlmStatus.incomplete }).trans.status = TlmStatus.ok :=
  ⟨(C8_amended.1 0x40000000 (fun _ => 0) 0x10002000 4 4 4 [0x68, 0x75, 0, 0] [0, 0, 0, 0]
      TlmStatus.incomplete TlmStatus.incomplete (by decide) (by norm_num) (by norm_num)
      (by norm_num) (by norm_num) (by norm_num) rfl).1,
   (C8_amended.2 0x40000000 (fun _ => 0) _ (by decide) rfl).1,
   (C8_amended.2 0x40000000 (fun _ => 0) _ (by decide) rfl).2.2⟩

/-- C10: one iteration of the RV64 cycle_thread prints the statistics
and requests sc_stop exactly when, after the stages have run, the cycle
counter exceeds 100, the PCGen-to-Fetch latch is invalid in both its
current and its next copy, the Fetch-to-ID, ID-to-Issue and Issue-to-EX
latches are invalid, and the reorder buffer is empty. -/
theorem C10_selfstop : ∀ (env : P64Env) (s : P64State),
    (P64.step env s).2 = true ↔
      (100 < (P64.step env s).1.cycles ∧
        (P64.step env s).1.pcgenFetchReg.valid = false ∧
        (P64.step env s).1.pcgenFetchNext.valid = false ∧
        (P64.step env s).1.fetchIdReg.valid = false ∧
        (P64.step env s).1.idIssueReg.valid = false ∧
        (P64.step env s).1.issueExReg.valid = false ∧
        (P64.step env s).1.rob.count = 0) := by
  intro env s
  simp only [P64.step, Bool.and_eq_true, decide_eq_true_eq, Bool.not_eq_true',
    Rob.isEmpty, beq_iff_eq]
  tauto

/-- C7 counterexample: in the RV64 6-stage pipeline an ECALL with a7 = 1
does not stop the simulation (EX_stage only checks syscall number 93),
contradicting the claim that every 6-stage variant stops on a7 values
{1, 93}. -/
theorem C7_counterexample :
    (P64.exStage ⟨fun _ => some 0x13, fun _ _ => 0, fun _ _ => 0, false⟩
        { P64.initState 0 (fun i => if i = 17 then 1 else 0) with
          issueExReg := { opcode := 0x73
                          funct3 := 0
                          imm := 0
                          robIndex := 0
                          valid := true } }).stopReq = false ∧
    getReg (fun i => if i = 17 then 1 else 0) 17 = 1 := by
  exact ⟨rfl, rfl⟩

/-- C7 (amended): the RV32 6-stage EX stage stops the simulation on an
ECALL exactly when a7 is 93 or 1, and on a7 = 64 with a0 (fd) = 1 emits
the a2 (len) bytes starting at a1 read through the data bus; the RV64
6-stage EX stage stops only when a7 = 93 and performs no sys_write
handling. -/
theorem C7_amended :
    (∀ (regs : Nat → Nat) (load : Nat → Nat → Nat) (l : RV32IsExLatch),
      l.valid = true → l.opcode = 0x73 → l.funct3 = 0 → l.imm = 0 →
      ((P32.exStage regs load l).2.stop = true ↔
        (getReg regs 17 = 93 ∨ getReg regs 17 = 1)) ∧
      ((P32.exStage regs load l).2.out =
        if getReg regs 17 = 93 ∨ getReg regs 17 = 1 then []
        else if getReg regs 17 = 64 ∧ getReg regs 10 = 1 then
          (List.range (getReg regs 12)).map fun i => u8 (load (u32 (getReg regs 11 + i)) 1)
        else [])) ∧
    (∀ (env : P64Env) (s : P64State), s.issueExReg.valid = true →
      s.issueExReg.opcode = 0x73 → s.issueExReg.funct3 = 0 → s.issueExReg.imm = 0 →
      s.stopReq = false →
      ((P64.exStage env s).stopReq = true ↔ s.regs 17 = 93)) := by
  constructor
  · intro regs load l hv hop hf3 himm
    obtain ⟨pc, rs1v, rs2v, imm, rd, opc, f3, f7, v⟩ := l
    simp only [RV32IsExLatch.valid, RV32IsExLatch.opcode, RV32IsExLatch.funct3,
      RV32IsExLatch.imm] at hv hop hf3 himm
    subst hv hop hf3 himm
    constructor
    · simp only [P32.exStage]
      norm_num
      split_ifs <;> simp_all [getReg]
    · simp only [P32.exStage]
      norm_num
      split_ifs <;> simp_all [getReg]
  · intro env s hv hop hf3 himm hstop
    have ha : P64.exAlu s.issueExReg = (0, false, 0) := by
      unfold P64.exAlu
      rw [hop]
    simp only [P64.exStage, hv, Bool.not_true, Bool.false_eq_true, if_false, ha, hop,
      hf3, himm]
    norm_num
    split_ifs with h <;> simp_all [getReg]

/-- C7 witness: the amended statements applied at concrete inputs: an
RV32 ECALL with a7 = 1 stops, an RV32 ECALL with a7 = 64 and fd = 1
emits two bytes, and an RV64 ECALL with a7 = 93 stops. -/
theorem C7_witness :
    ((P32.exStage (fun i => if i = 17 then 1 else 0) (fun _ _ => 65)
        { opcode := 0x73, funct3 := 0, imm := 0, valid := true }).2.stop = true ↔
      ((fun i => if i = 17 then 1 else 0) 17 = 93 ∨
        (fun i => if i = 17 then 1 else 0) 17 = 1)) ∧
    (P32.exStage (fun i => if i = 17 then 64 else if i = 10 then 1 else 2) (fun _ _ => 65)
        { opcode := 0x73, funct3 := 0, imm := 0, valid := true }).2.out = [65, 65] ∧
    ((P64.exStage ⟨fun _ => some 0x13, fun _ _ => 0, fun _ _ => 0, false⟩
        { P64.initState 0 (fun i => if i = 17 then 93 else 0) with
          issueExReg := { opcode := 0x73
                          funct3 := 0
                          imm := 0
                          robIndex := 0
                          valid := true } }).stopReq = true ↔
      (P64.initState 0 (fun i => if i = 17 then 93 else (0 : Nat))).regs 17 = 93) := by
  refine ⟨?_, ?_, ?_⟩
  · exact (C7_amended.1 (fun i => if i = 17 then 1 else 0) (fun _ _ => 65)
      { opcode := 0x73, funct3 := 0, imm := 0, valid := true } rfl rfl rfl rfl).1
  · have h := (C7_amended.1 (fun i => if i = 17 then 64 else if i = 10 then 1 else 2)
      (fun _ _ => 65) { opcode := 0x73, funct3 := 0, imm := 0, valid := true }
      rfl rfl rfl rfl).2
    rw [h]; rfl
  · exact C7_amended.2 ⟨fun _ => some 0x13, fun _ _ => 0, fun _ _ => 0, false⟩
      { P64.initState 0 (fun i => if i = 17 then 93 else 0) with
        issueExReg := { opcode := 0x73
                        funct3 := 0
                        imm := 0
                        robIndex := 0
                        valid := true } } rfl rfl rfl rfl rfl

/-- C9 counterexample: the RV64 6-stage Fetch_stage performs no
dma_in_flight check at all, so it fetches an instruction even while the
DMA flag is raised, contradicting the claim that every 6-stage variant
stalls its fetch stage while dma_in_flight is true. -/
theorem C9_counterexample :
    (P64.fetchStage ⟨fun _ => some 0x13, fun _ _ => 0, fun _ _ => 0, true⟩
        { P64.initState 0 (fun _ => 0) with
          pcgenFetchReg := { pc := 0, valid := true } }).fetchIdNext.valid = true ∧
    (⟨fun _ => some 0x13, fun _ _ => 0, fun _ _ => 0, true⟩ : P64Env).dmaInFlight = true := by
  exact ⟨rfl, rfl⟩

/-- C9 (amended): the RV32 6-stage IF stage spins one clock edge at a
time while DMA::is_in_flight() is true, and proceeds to fetch only at a
cycle where the flag is false (during the wait no other stage of that
single-threaded pipeline runs, so nothing retires); the RV64 6-stage
Fetch stage performs no DMA check at all, behaving identically whatever
the value of the flag. -/
theorem C9_amended :
    (∀ (dma : Nat → Bool) (t fuel tf : Nat), P32.ifWaitDMA dma t fuel = some tf →
      dma tf = false ∧ t ≤ tf ∧ ∀ u, t ≤ u → u < tf → dma u = true) ∧
    (∀ (env1 env2 : P64Env) (s : P64State), env1.fetch = env2.fetch →
      P64.fetchStage env1 s = P64.fetchStage env2 s) := by
  constructor
  · intro dma t fuel
    induction fuel generalizing t with
    | zero => intro tf h; simp [P32.ifWaitDMA] at h
    | succ n ih =>
        intro tf h
        unfold P32.ifWaitDMA at h
        by_cases hd : dma t
        · rw [if_pos hd] at h
          obtain ⟨h1, h2, h3⟩ := ih (t + 1) tf h
          refine ⟨h1, by omega, ?_⟩
          intro u hu1 hu2
          by_cases he : u = t
          · rw [he]; exact hd
          · exact h3 u (by omega) hu2
        · rw [if_neg hd] at h
          simp only [Option.some.injEq] at h
          subst h
          exact ⟨by simpa using hd, le_refl t, fun u hu1 hu2 => absurd (lt_of_le_of_lt hu1 hu2) (lt_irrefl t)⟩
  · intro env1 env2 s h
    unfold P64.fetchStage
    rw [h]

/-- C9 witness: the amended statements applied at concrete inputs: a
DMA flag raised for cycles 0 and 1 makes the RV32 IF stage wait until
cycle 2 (where the flag is down) and cycle 1 was indeed spent waiting;
the RV64 fetch result is the same with the flag up and down. -/
theorem C9_witness :
    (fun n => decide (n < 2)) 2 = false ∧
    (fun n => decide (n < 2)) 1 = true ∧
    P64.fetchStage ⟨fun _ => some 0x13, fun _ _ => 0, fun _ _ => 0, true⟩
        (P64.initState 0 (fun _ => 0)) =
      P64.fetchStage ⟨fun _ => some 0x13, fun _ _ => 0, fun _ _ => 0, false⟩
        (P64.initState 0 (fun _ => 0)) :=
  ⟨(C9_amended.1 (fun n => decide (n < 2)) 0 5 2 (by rfl)).1,
   (C9_amended.1 (fun n => decide (n < 2)) 0 5 2 (by rfl)).2.2 1 (by omega) (by omega),
   C9_amended.2 ⟨fun _ => some 0x13, fun _ _ => 0, fun _ _ => 0, true⟩
     ⟨fun _ => some 0x13, fun _ _ => 0, fun _ _ => 0, false⟩
     (P64.initState 0 (fun _ => 0)) rfl⟩

/-- The circular-buffer well-formedness of ReorderBuffer<32> is
preserved by every operation. -/
theorem rob_reach_wf : ∀ {r : Rob}, Rob.Reach r → Rob.WF r := by
  intro r h
  induction h with
  | init => exact ⟨by decide, by decide, by decide⟩
  | allocate _ ih =>
      obtain ⟨h1, h2, h3⟩ := ih
      unfold Rob.allocate
      split
      · exact ⟨h1, h2, h3⟩
      · rename_i hfull
        simp only [Rob.isFull, beq_iff_eq] at hfull
        exact ⟨h1, by simp only []; omega, by simp only []; omega⟩
  | complete _ idx res rd ih =>
      obtain ⟨h1, h2, h3⟩ := ih
      unfold Rob.complete
      split
      · exact ⟨h1, h2, h3⟩
      · exact ⟨h1, h2, h3⟩
  | retire _ ih =>
      obtain ⟨h1, h2, h3⟩ := ih
      unfold Rob.retire
      split
      · exact ⟨h1, h2, h3⟩
      · rename_i hne
        simp only [Rob.isEmpty, beq_iff_eq] at hne
        exact ⟨by simp only []; omega, by simp only []; omega, by simp only []; omega⟩

/-- Allocation when the buffer is not full appends the tail slot to the
live queue and returns its index. -/
theorem absQueue_allocate {r : Rob} (h : Rob.WF r) (hc : r.count < 32) :
    r.allocate.1.absQueue = r.absQueue ++ [r.tail] ∧ r.allocate.2 = (r.tail : Int) := by
  obtain ⟨h1, h2, h3⟩ := h
  have hnf : r.isFull = false := by
    simp only [Rob.isFull, beq_eq_false_iff_ne, ne_eq]
    omega
  unfold Rob.allocate
  rw [hnf]
  simp only [Bool.false_eq_true, if_false, Rob.absQueue, List.range_succ, List.map_append,
    List.map_cons, List.map_nil]
  refine ⟨?_, trivial⟩
  rw [h2]

/-- Retirement of a non-empty buffer removes precisely the head slot,
the front of the live queue. -/
theorem absQueue_retire {r : Rob} (h : Rob.WF r) (hc : 1 ≤ r.count) :
    r.retire.absQueue = r.absQueue.tail ∧ r.absQueue.head? = some r.head := by
  obtain ⟨h1, h2, h3⟩ := h
  have hne : r.isEmpty = false := by
    simp only [Rob.isEmpty, beq_eq_false_iff_ne, ne_eq]
    omega
  unfold Rob.retire
  rw [hne]
  simp only [Bool.false_eq_true, if_false, Rob.absQueue]
  obtain ⟨c, hcount⟩ : ∃ c, r.count = c + 1 := ⟨r.count - 1, by omega⟩
  rw [hcount]
  constructor
  · rw [List.range_succ_eq_map]
    simp only [List.map_cons, List.tail_cons, List.map_map, Nat.add_sub_cancel]
    apply List.map_congr_left
    intro k _
    simp only [Function.comp_apply]
    omega
  · rw [List.range_succ_eq_map]
    simp only [List.map_cons, List.head?_cons, Option.some.injEq]
    omega

set_option maxRecDepth 4000 in
/-- C6 counterexample: after exactly 32 allocations from the initial
state the reorder buffer has head = tail yet is not empty (it is full),
refuting the claimed equivalence between head = tail and emptiness. -/
theorem C6_counterexample :
    (Rob.allocN 32).head = (Rob.allocN 32).tail ∧ (Rob.allocN 32).isEmpty = false := by
  constructor
  · rfl
  · rfl

/-- C6 (amended): in every state reachable by allocate, complete and
retire operations, at most 32 instructions are in flight and allocate
fails with -1 exactly when the buffer holds 32 entries; head = tail
holds exactly when the buffer is empty or full (count 0 or 32), not
exactly when it is empty; and retirement is FIFO: the live queue is a
list to whose back allocate appends the tail slot and whose front
(the head slot) retire removes. -/
theorem C6_amended :
    (∀ r, Rob.Reach r → r.count ≤ 32) ∧
    (∀ r, Rob.Reach r → (r.allocate.2 = -1 ↔ r.count = 32)) ∧
    (∀ r, Rob.Reach r → (r.head = r.tail ↔ (r.count = 0 ∨ r.count = 32))) ∧
    (∀ r, Rob.Reach r → r.count < 32 →
      r.allocate.1.absQueue = r.absQueue ++ [r.tail] ∧ r.allocate.2 = (r.tail : Int)) ∧
    (∀ r, Rob.Reach r → 1 ≤ r.count →
      r.retire.absQueue = r.absQueue.tail ∧ r.absQueue.head? = some r.head) := by
  refine ⟨?_, ?_, ?_, ?_, ?_⟩
  · intro r h
    exact (rob_reach_wf h).2.2
  · intro r h
    obtain ⟨h1, h2, h3⟩ := rob_reach_wf h
    unfold Rob.allocate
    split
    · rename_i hfull
      simp only [Rob.isFull, beq_iff_eq] at hfull
      simp [hfull]
    · rename_i hfull
      simp only [Rob.isFull, beq_iff_eq] at hfull
      simp only []
      constructor
      · intro hh
        exact absurd hh (by omega)
      · intro hh
        exact absurd hh hfull
  · intro r h
    obtain ⟨h1, h2, h3⟩ := rob_reach_wf h
    rw [h2]
    omega
  · intro r h hc
    exact absQueue_allocate (rob_reach_wf h) hc
  · intro r h hc
    exact absQueue_retire (rob_reach_wf h) hc

/-- C6 witness: the amended statements applied at concrete reachable
states (the initial buffer and the buffer after one allocation). -/
theorem C6_witness :
    Rob.init.count ≤ 32 ∧
    (Rob.init.allocate.2 = -1 ↔ Rob.init.count = 32) ∧
    (Rob.init.head = Rob.init.tail ↔ (Rob.init.count = 0 ∨ Rob.init.count = 32)) ∧
    (Rob.init.allocate.1.absQueue = Rob.init.absQueue ++ [Rob.init.tail] ∧
      Rob.init.allocate.2 = ((Rob.init.tail : Nat) : Int)) ∧
    (Rob.init.allocate.1.retire.absQueue = Rob.init.allocate.1.absQueue.tail ∧
      Rob.init.allocate.1.absQueue.head? = some Rob.init.allocate.1.head) :=
  ⟨C6_amended.1 _ Rob.Reach.init,
   C6_amended.2.1 _ Rob.Reach.init,
   C6_amended.2.2.1 _ Rob.Reach.init,
   C6_amended.2.2.2.1 _ Rob.Reach.init (by norm_num [Rob.init]),
   C6_amended.2.2.2.2 _ (Rob.Reach.allocate Rob.Reach.init) (by norm_num [Rob.init, Rob.allocate, Rob.isFull])⟩

namespace P64

/-- The fields that the boundary invariant mentions are untouched by the
ID stage. -/
theorem idStage_frame (s : P64State) :
    (idStage s).rob = s.rob ∧ (idStage s).storeBuffer = s.storeBuffer ∧
    (idStage s).scoreboard = s.scoreboard ∧ (idStage s).writeTrace = s.writeTrace ∧
    (idStage s).serialCtr = s.serialCtr ∧ (idStage s).issueExNext = s.issueExNext := by
  unfold idStage
  split_ifs <;> exact ⟨rfl, rfl, rfl, rfl, rfl, rfl⟩

/-- The fields that the boundary invariant mentions are untouched by the
Fetch stage. -/
theorem fetchStage_frame (env : P64Env) (s : P64State) :
    (fetchStage env s).rob = s.rob ∧ (fetchStage env s).storeBuffer = s.storeBuffer ∧
    (fetchStage env s).scoreboard = s.scoreboard ∧
    (fetchStage env s).writeTrace = s.writeTrace ∧
    (fetchStage env s).serialCtr = s.serialCtr ∧
    (fetchStage env s).issueExNext = s.issueExNext := by
  unfold fetchStage
  split_ifs <;> try exact ⟨rfl, rfl, rfl, rfl, rfl, rfl⟩
  cases env.fetch s.pcgenFetchReg.pc <;> exact ⟨rfl, rfl, rfl, rfl, rfl, rfl⟩

/-- The fields that the boundary invariant mentions are untouched by the
PCGen stage. -/
theorem pcgenStage_frame (s : P64State) :
    (pcgenStage s).rob = s.rob ∧ (pcgenStage s).storeBuffer = s.storeBuffer ∧
    (pcgenStage s).scoreboard = s.scoreboard ∧ (pcgenStage s).writeTrace = s.writeTrace ∧
    (pcgenStage s).serialCtr = s.serialCtr ∧ (pcgenStage s).issueExNext = s.issueExNext := by
  unfold pcgenStage
  split_ifs <;> exact ⟨rfl, rfl, rfl, rfl, rfl, rfl⟩

/-- Transfer of the boundary invariant along a state equal in all the
fields the invariant mentions. -/
theorem pinv_of_eq {s s' : P64State} (h : PInv s)
    (hrob : s'.rob = s.rob) (hsb : s'.storeBuffer = s.storeBuffer)
    (hsc : s'.scoreboard = s.scoreboard) (htr : s'.writeTrace = s.writeTrace)
    (hse : s'.serialCtr = s.serialCtr) (hie : s'.issueExNext = s.issueExNext) :
    PInv s' := by
  refine ⟨?_, ?_, ?_, ?_, ?_, ?_, ?_, ?_, ?_, ?_, ?_, ?_, ?_, ?_, ?_, ?_, ?_, ?_, ?_, ?_⟩ <;>
    simp only [hrob, hsb, hsc, htr, hse, hie]
  exacts [h.headLt, h.tailEq, h.countLe, h.liveValid1, h.liveValid2, h.validChar, h.pend2,
    h.pendChar, h.readyChar, h.readyDest, h.serialOrder, h.serialLt, h.traceChain,
    h.traceLtLive, h.traceLtCtr, h.sbSound, h.sbInj, h.sbComplete, h.scoreboard0,
    h.scoreboardChar]

/-- Only the ready entries at the head or, when two instructions are in
flight, at head+1 can be valid; the second is never ready, so any valid
ready entry sits at the head. -/
theorem pinv_ready_head {s : P64State} (h : PInv s) :
    ∀ i, (s.rob.entries i).valid = true → (s.rob.entries i).ready = true →
      i = s.rob.head := by
  intro i hv hr
  rcases h.validChar i hv with ⟨_, he⟩ | ⟨hc2, he⟩
  · exact he
  · exfalso
    have hp := h.pendChar (h.pend2 hc2)
    have hl : lastIdx s.rob = (s.rob.head + 1) % 32 := by
      unfold lastIdx
      rw [hc2]
    rw [← hl] at he
    rw [he] at hr
    rw [hp.2.2.1] at hr
    exact Bool.false_ne_true hr

/-- Case split on a ready head under the boundary invariant. -/
theorem pinv_headReady_cases {s : P64State} (h : PInv s)
    (hhr : s.rob.headReady = true) :
    (s.rob.count = 1 ∧ s.issueExNext.valid = false) ∨
      (s.rob.count = 2 ∧ s.issueExNext.valid = true) := by
  have hv : (s.rob.entries s.rob.head).valid = true := by
    unfold Rob.headReady at hhr
    exact (Bool.and_eq_true _ _ |>.mp hhr).1
  have hr : (s.rob.entries s.rob.head).ready = true := by
    unfold Rob.headReady at hhr
    exact (Bool.and_eq_true _ _ |>.mp hhr).2
  have hc1 : 1 ≤ s.rob.count := by
    rcases h.validChar _ hv with ⟨hc, _⟩ | ⟨hc, _⟩ <;> omega
  have hc2 := h.countLe
  interval_cases hcount : s.rob.count
  · left
    refine ⟨rfl, ?_⟩
    by_contra hne
    have hpv : s.issueExNext.valid = true := by
      cases hval : s.issueExNext.valid
      · exact absurd hval hne
      · rfl
    have hp := h.pendChar hpv
    have hl : lastIdx s.rob = s.rob.head := by
      unfold lastIdx
      rw [hcount]
      simpa using Nat.mod_eq_of_lt h.headLt
    rw [hl] at hp
    rw [hp.2.2.1] at hr
    exact Bool.false_ne_true hr
  · right
    exact ⟨rfl, h.pend2 hcount⟩

/-- Case split on a non-ready head under the boundary invariant. -/
theorem pinv_notReady_cases {s : P64State} (h : PInv s)
    (hhr : s.rob.headReady = false) :
    s.rob.count = 0 ∨
      (s.rob.count = 1 ∧ s.issueExNext.valid = true ∧
        (s.rob.entries s.rob.head).valid = true ∧
        (s.rob.entries s.rob.head).ready = false) := by
  have hc2 := h.countLe
  interval_cases hcount : s.rob.count
  · exact Or.inl rfl
  · right
    have hv : (s.rob.entries s.rob.head).valid = true := h.liveValid1 (by omega)
    have hr : (s.rob.entries s.rob.head).ready = false := by
      cases hrr : (s.rob.entries s.rob.head).ready
      · rfl
      · exfalso
        unfold Rob.headReady at hhr
        rw [hv, hrr] at hhr
        simp at hhr
    have hpv := h.readyChar _ hv hr
    exact ⟨rfl, hpv.1, hv, hr⟩
  · exfalso
    have hv : (s.rob.entries s.rob.head).valid = true := h.liveValid1 (by omega)
    have hr : (s.rob.entries s.rob.head).ready = true := by
      cases hrr : (s.rob.entries s.rob.head).ready
      · exfalso
        have hpv := h.readyChar _ hv hrr
        have hl : lastIdx s.rob = (s.rob.head + 1) % 32 := by
          unfold lastIdx
          rw [hcount]
        rw [hl] at hpv
        have : s.rob.head = (s.rob.head + 1) % 32 := hpv.2
        omega
      · rfl
    unfold Rob.headReady at hhr
    rw [hv, hr] at hhr
    simp at hhr

/-- A successful find? over the store-buffer scan range. -/
theorem find?_range8_some {p : Nat → Bool} {i : Nat}
    (h : (List.range 8).find? p = some i) : i < 8 ∧ p i = true :=
  ⟨List.mem_range.mp (List.mem_of_find?_eq_some h), List.find?_some h⟩

/-- If some slot below 8 satisfies the scan predicate, find? succeeds. -/
theorem find?_range8_isSome {p : Nat → Bool} {j : Nat} (hj : j < 8) (hp : p j = true) :
    ∃ i, (List.range 8).find? p = some i := by
  cases hf : (List.range 8).find? p with
  | some i => exact ⟨i, rfl⟩
  | none =>
      exfalso
      have := List.find?_eq_none.mp hf j (List.mem_range.mpr hj)
      rw [hp] at this
      exact this rfl

/-- Fields of the commit stage that never change. -/
theorem commitStage_frame (s : P64State) :
    (commitStage s).serialCtr = s.serialCtr ∧ (commitStage s).issueExReg = s.issueExReg ∧
    (commitStage s).issueExNext = s.issueExNext := by
  simp only [commitStage]
  refine ⟨?_, ?_, ?_⟩ <;> (repeat' split) <;> rfl

/-- The reorder buffer after the commit stage: a retire happens exactly
when the head is ready. -/
theorem commitStage_rob (s : P64State) :
    (commitStage s).rob = if s.rob.headReady = true then s.rob.retire else s.rob := by
  simp only [commitStage]
  (repeat' split) <;> rfl

/-- The write trace after the commit stage grows by exactly the commit
writes. -/
theorem commitStage_writeTrace (s : P64State) :
    (commitStage s).writeTrace = s.writeTrace ++ commitWrites s := by
  simp only [commitStage, commitWrites]
  (repeat' split) <;> simp_all

/-- The store buffer after the commit stage. -/
theorem commitStage_storeBuffer (s : P64State) :
    (commitStage s).storeBuffer =
      if s.rob.headReady = true ∧ (s.rob.getHead).isStore = true then
        match s.storeBuffer.commitStore ((s.rob.getHeadIndex : Nat) : Int) with
        | some (sb', _, _, _) => sb'
        | none => s.storeBuffer
      else s.storeBuffer := by
  simp only [commitStage]
  (repeat' split) <;> simp_all

/-- The scoreboard after the commit stage: the retired destination bit
is cleared when it is non-zero, nothing else changes. -/
theorem commitStage_scoreboard_eq (s : P64State) :
    (commitStage s).scoreboard =
      if s.rob.headReady = true ∧ (s.rob.getHead).destReg ≠ 0 then
        (fun i => if i = (s.rob.getHead).destReg then false else s.scoreboard i)
      else s.scoreboard := by
  simp only [commitStage]
  (repeat' split) <;> simp_all

/-- Bits that are set after the commit stage were already set before,
and the retired destination bit (when non-zero) is not among them. -/
theorem commitStage_scoreboard (s : P64State) (i : Nat)
    (h : (commitStage s).scoreboard i = true) :
    s.scoreboard i = true ∧
      (s.rob.headReady = true → (s.rob.getHead).destReg ≠ 0 →
        i ≠ (s.rob.getHead).destReg) := by
  rw [commitStage_scoreboard_eq] at h
  revert h
  split
  · rename_i hc
    intro h
    simp only at h
    revert h
    split
    · intro h
      exact absurd h (by simp)
    · rename_i hne
      intro h
      exact ⟨h, fun _ _ => hne⟩
  · rename_i hc
    intro h
    refine ⟨h, ?_⟩
    intro hr hd
    exact (hc ⟨hr, hd⟩).elim

/-- Retiring a non-zero destination clears its scoreboard bit. -/
theorem commitStage_scoreboard_clear (s : P64State)
    (hhr : s.rob.headReady = true) (hd : (s.rob.getHead).destReg ≠ 0) :
    (commitStage s).scoreboard (s.rob.getHead).destReg = false := by
  rw [commitStage_scoreboard_eq, if_pos ⟨hhr, hd⟩]
  simp

/-- Shape of ReorderBuffer::retire on a non-empty buffer. -/
theorem rob_retire_spec {r : Rob} (hc : 1 ≤ r.count) :
    r.retire.head = (r.head + 1) % 32 ∧ r.retire.tail = r.tail ∧
    r.retire.count = r.count - 1 ∧
    ∀ j, r.retire.entries j =
      if j = r.head then { r.entries r.head with valid := false } else r.entries j := by
  have hne : r.isEmpty = false := by
    simp only [Rob.isEmpty, beq_eq_false_iff_ne, ne_eq]
    omega
  unfold Rob.retire
  rw [hne]
  exact ⟨rfl, rfl, rfl, fun j => rfl⟩

/-- The commit writes are empty or a single write carrying the serial of
the retiring head entry. -/
theorem commitWrites_spec (s : P64State) :
    commitWrites s = [] ∨
      (s.rob.headReady = true ∧ (s.rob.getHead).isStore = true ∧
        ∃ w, commitWrites s = [w] ∧ w.ghostSerial = (s.rob.getHead).ghostSerial) := by
  unfold commitWrites
  split
  · rename_i hhr
    split
    · rename_i hst
      split
      · split
        · exact Or.inr ⟨hhr, hst, _, rfl, rfl⟩
        · exact Or.inr ⟨hhr, hst, _, rfl, rfl⟩
      · exact Or.inl rfl
    · exact Or.inl rfl
  · exact Or.inl rfl

/-- Appending a strict upper bound keeps a chain strictly increasing. -/
theorem chain'_append_singleton {l : List Nat} {x : Nat}
    (hc : List.Chain' (· < ·) l) (hx : ∀ y ∈ l, y < x) :
    List.Chain' (· < ·) (l ++ [x]) := by
  rw [List.chain'_append]
  refine ⟨hc, List.chain'_singleton x, ?_⟩
  intro a ha b hb
  simp only [List.head?_cons, Option.mem_def, Option.some.injEq] at hb
  subst hb
  obtain ⟨hne, hlast⟩ := List.mem_getLast?_eq_getLast ha
  exact hx a (hlast ▸ List.getLast_mem hne)

/-- A valid ready head makes headReady true. -/
theorem headReady_of (r : Rob) (hv : (r.entries r.head).valid = true)
    (hr : (r.entries r.head).ready = true) : r.headReady = true := by
  unfold Rob.headReady
  rw [hv, hr]
  rfl

/-- The head entry of a ready head is valid and ready. -/
theorem of_headReady {r : Rob} (h : r.headReady = true) :
    (r.entries r.head).valid = true ∧ (r.entries r.head).ready = true := by
  unfold Rob.headReady at h
  exact Bool.and_eq_true _ _ |>.mp h

/-- After the commit stage the store buffer is empty (under the boundary
invariant every buffered store belongs to the retiring head). -/
theorem commit_sb_invalid {s : P64State} (h : PInv s) :
    ∀ k, (((commitStage s).storeBuffer).entries k).valid = false := by
  intro k
  have hsb := commitStage_storeBuffer s
  cases hhr : s.rob.headReady with
  | false =>
      rw [hsb, if_neg (by simp [hhr])]
      cases hval : (s.storeBuffer.entries k).valid
      · rfl
      · exfalso
        obtain ⟨i, hvi, hsti, hri, _⟩ := h.sbSound k hval
        have hih := pinv_ready_head h i hvi hri
        rw [hih] at hvi hri
        rw [headReady_of s.rob hvi hri] at hhr
        simp at hhr
  | true =>
      obtain ⟨hv, hr⟩ := of_headReady hhr
      cases hst : (s.rob.getHead).isStore with
      | false =>
          rw [hsb, if_neg (by simp [hhr, hst])]
          cases hval : (s.storeBuffer.entries k).valid
          · rfl
          · exfalso
            obtain ⟨i, hvi, hsti, hri, _⟩ := h.sbSound k hval
            have hih := pinv_ready_head h i hvi hri
            rw [hih] at hsti
            rw [show s.rob.getHead = s.rob.entries s.rob.head from rfl, hsti] at hst
            simp at hst
      | true =>
          obtain ⟨j0, hj0lt, hj0v, hj0idx⟩ := h.sbComplete s.rob.head hv
            (by rw [show s.rob.getHead = s.rob.entries s.rob.head from rfl] at hst; exact hst) hr
          have hpred : ((s.storeBuffer.entries j0).valid &&
              ((s.storeBuffer.entries j0).robIndex == ((s.rob.head : Nat) : Int))) = true := by
            simp [hj0v, hj0idx]
          obtain ⟨i0, hfind⟩ := find?_range8_isSome
            (p := fun q => (s.storeBuffer.entries q).valid &&
              ((s.storeBuffer.entries q).robIndex == ((s.rob.head : Nat) : Int)))
            hj0lt hpred
          have hi0 := find?_range8_some hfind
          have hcs : s.storeBuffer.commitStore ((s.rob.getHeadIndex : Nat) : Int) =
              some (⟨fun q => if q = i0 then { s.storeBuffer.entries i0 with valid := false }
                else s.storeBuffer.entries q⟩,
                (s.storeBuffer.entries i0).address, (s.storeBuffer.entries i0).data,
                (s.storeBuffer.entries i0).size) := by
            unfold Sb.commitStore
            rw [show ((s.rob.getHeadIndex : Nat) : Int) = ((s.rob.head : Nat) : Int) from rfl]
            rw [hfind]
          rw [hsb, if_pos ⟨hhr, hst⟩, hcs]
          simp only []
          by_cases hk : k = i0
          · rw [if_pos hk]
          · rw [if_neg hk]
            cases hval : (s.storeBuffer.entries k).valid
            · rfl
            · exfalso
              obtain ⟨i, hvi, hsti, hri, hidx⟩ := h.sbSound k hval
              have hih := pinv_ready_head h i hvi hri
              rw [hih] at hidx
              have hieq : (s.storeBuffer.entries k).robIndex =
                  (s.storeBuffer.entries i0).robIndex := by
                rw [hidx]
                have := hi0.2
                simp only [Bool.and_eq_true, beq_iff_eq] at this
                rw [this.2]
              exact hk (h.sbInj k i0 hval
                (by
                  have := hi0.2
                  simp only [Bool.and_eq_true, beq_iff_eq] at this
                  exact this.1) hieq)

/-- Bit zero of the scoreboard stays clear through the commit stage. -/
theorem commit_scoreboard0 {s : P64State} (h : PInv s) :
    (commitStage s).scoreboard 0 = false := by
  rw [commitStage_scoreboard_eq]
  split
  · simp [h.scoreboard0]
  · exact h.scoreboard0

/-- Every scoreboard bit set after the commit stage is witnessed by a
surviving valid ROB entry with that ghost destination. -/
theorem commit_scoreboard_char {s : P64State} (h : PInv s) :
    ∀ i, (commitStage s).scoreboard i = true →
      ∃ j, (((commitStage s).rob).entries j).valid = true ∧
        (((commitStage s).rob).entries j).ghostRd = i := by
  intro i hbit
  obtain ⟨hpre, hguard⟩ := commitStage_scoreboard s i hbit
  obtain ⟨j0, hj0v, hj0g⟩ := h.scoreboardChar i hpre
  have hrob := commitStage_rob s
  cases hhr : s.rob.headReady with
  | false =>
      rw [hrob, if_neg (by simp [hhr])]
      exact ⟨j0, hj0v, hj0g⟩
  | true =>
      obtain ⟨hv, hr⟩ := of_headReady hhr
      have hc1 : 1 ≤ s.rob.count := by
        rcases h.validChar _ hv with ⟨hc, _⟩ | ⟨hc, _⟩ <;> omega
      obtain ⟨_, _, _, hent⟩ := rob_retire_spec hc1
      rw [hrob, if_pos hhr]
      by_cases hj0 : j0 = s.rob.head
      · exfalso
        rw [hj0] at hj0g
        have hdg := h.readyDest s.rob.head hv hr
        by_cases hd0 : (s.rob.entries s.rob.head).destReg = 0
        · rw [hd0] at hdg
          rw [← hdg] at hj0g
          rw [← hj0g] at hpre
          rw [h.scoreboard0] at hpre
          exact Bool.false_ne_true hpre
        · have := hguard hhr (by
            rw [show s.rob.getHead = s.rob.entries s.rob.head from rfl]
            exact hd0)
          apply this
          rw [show s.rob.getHead = s.rob.entries s.rob.head from rfl, hdg, hj0g]
      · refine ⟨j0, ?_, ?_⟩
        · rw [hent j0, if_neg hj0]
          exact hj0v
        · rw [hent j0, if_neg hj0]
          exact hj0g

/-- The write-trace invariants survive the commit stage: the appended
write (if any) carries the serial of the retiring head, which is below
every surviving live serial and above everything already traced. -/
theorem commit_trace {s : P64State} (h : PInv s) :
    List.Chain' (· < ·) ((commitStage s).writeTrace.map MemWrite.ghostSerial) ∧
    (∀ w ∈ (commitStage s).writeTrace, ∀ j,
      (((commitStage s).rob).entries j).valid = true →
      w.ghostSerial < (((commitStage s).rob).entries j).ghostSerial) ∧
    (∀ w ∈ (commitStage s).writeTrace, w.ghostSerial < (commitStage s).serialCtr) := by
  have htr := commitStage_writeTrace s
  have hrob := commitStage_rob s
  have hser := (commitStage_frame s).1
  rcases commitWrites_spec s with hcw | ⟨hhr, hst, w, hcw, hwser⟩
  · rw [htr, hcw, List.append_nil, hser, hrob]
    refine ⟨h.traceChain, ?_, h.traceLtCtr⟩
    intro w hw j
    split
    · rename_i hhr
      obtain ⟨hv, _⟩ := of_headReady hhr
      have hc1 : 1 ≤ s.rob.count := by
        rcases h.validChar _ hv with ⟨hc, _⟩ | ⟨hc, _⟩ <;> omega
      obtain ⟨_, _, _, hent⟩ := rob_retire_spec hc1
      rw [hent j]
      split
      · intro hvj
        simp at hvj
      · intro hvj
        exact h.traceLtLive w hw j hvj
    · exact h.traceLtLive w hw j
  · obtain ⟨hv, hr⟩ := of_headReady hhr
    have hc1 : 1 ≤ s.rob.count := by
      rcases h.validChar _ hv with ⟨hc, _⟩ | ⟨hc, _⟩ <;> omega
    obtain ⟨_, _, _, hent⟩ := rob_retire_spec hc1
    have hwg : w.ghostSerial = (s.rob.entries s.rob.head).ghostSerial := hwser
    rw [htr, hcw, hser, hrob, if_pos hhr]
    refine ⟨?_, ?_, ?_⟩
    · rw [List.map_append]
      apply chain'_append_singleton h.traceChain
      intro y hy
      simp only [List.mem_map] at hy
      obtain ⟨w0, hw0, hw0y⟩ := hy
      rw [← hw0y, hwg]
      exact h.traceLtLive w0 hw0 s.rob.head hv
    · intro w0 hw0 j hvj
      rw [hent j] at hvj
      by_cases hj : j = s.rob.head
      · rw [if_pos hj] at hvj
        simp at hvj
      · rw [if_neg hj] at hvj
        rw [hent j, if_neg hj]
        rcases List.mem_append.mp hw0 with hin | hin
        · exact h.traceLtLive w0 hin j hvj
        · simp only [List.mem_singleton] at hin
          subst hin
          rw [hwg]
          rcases h.validChar j hvj with ⟨_, hje⟩ | ⟨hc2, hje⟩
          · exact absurd hje hj
          · rw [hje]
            exact h.serialOrder hc2
    · intro w0 hw0
      rcases List.mem_append.mp hw0 with hin | hin
      · exact h.traceLtCtr w0 hin
      · simp only [List.mem_singleton] at hin
        subst hin
        rw [hwg]
        exact h.serialLt s.rob.head hv

/-- Commit_stage takes a boundary-invariant state (after the latch copy,
so the issue-to-EX register equals its next latch) to the post-commit
invariant. -/
theorem commit_mid {s : P64State} (h : PInv s) (hlat : s.issueExReg = s.issueExNext) :
    MidC (commitStage s) := by
  obtain ⟨hser, hier, hien⟩ := commitStage_frame s
  have hrob := commitStage_rob s
  obtain ⟨htc, htl, htr⟩ := commit_trace h
  cases hhr : s.rob.headReady with
  | false =>
      rw [if_neg (by simp [hhr])] at hrob
      rcases pinv_notReady_cases h hhr with hc0 | ⟨hc1, hpv, hv, hnr⟩
      · refine ⟨?_, ?_, ?_, ?_, ?_, ?_, ?_, htc, htl, htr, commit_sb_invalid h,
          commit_scoreboard0 h, commit_scoreboard_char h⟩
        · rw [hrob]; exact h.headLt
        · rw [hrob]; exact h.tailEq
        · rw [hrob]; omega
        · rw [hrob, hier, hlat]
          constructor
          · intro hp
            exact absurd (h.pendChar hp).1 (by omega)
          · intro h1
            omega
        · intro hp
          rw [hier, hlat] at hp
          exact absurd (h.pendChar hp).1 (by omega)
        · intro j hvj
          rw [hrob] at hvj
          rcases h.validChar j hvj with ⟨hc, _⟩ | ⟨hc, _⟩ <;> exact absurd hc (by omega)
        · intro j hvj
          rw [hrob] at hvj
          rw [hser, hrob]
          exact h.serialLt j hvj
      · refine ⟨?_, ?_, ?_, ?_, ?_, ?_, ?_, htc, htl, htr, commit_sb_invalid h,
          commit_scoreboard0 h, commit_scoreboard_char h⟩
        · rw [hrob]; exact h.headLt
        · rw [hrob]; exact h.tailEq
        · rw [hrob]; omega
        · rw [hrob, hier, hlat, hc1]
          simp [hpv]
        · intro hp
          rw [hrob, hier, hlat]
          have hpc := h.pendChar hpv
          have hl : lastIdx s.rob = s.rob.head := by
            unfold lastIdx
            rw [hc1]
            simpa using Nat.mod_eq_of_lt h.headLt
          rw [hl] at hpc
          exact ⟨hpc.2.1, hv, hpc.2.2.1, hpc.2.2.2.1, hpc.2.2.2.2⟩
        · intro j hvj
          rw [hrob] at hvj ⊢
          rcases h.validChar j hvj with ⟨_, hje⟩ | ⟨hc, _⟩
          · exact ⟨hc1, hje⟩
          · exact absurd hc (by omega)
        · intro j hvj
          rw [hrob] at hvj
          rw [hser, hrob]
          exact h.serialLt j hvj
  | true =>
      rw [if_pos hhr] at hrob
      obtain ⟨hv, hr⟩ := of_headReady hhr
      have hc1 : 1 ≤ s.rob.count := by
        rcases h.validChar _ hv with ⟨hc, _⟩ | ⟨hc, _⟩ <;> omega
      obtain ⟨hh, ht, hc, hent⟩ := rob_retire_spec hc1
      rcases pinv_headReady_cases h hhr with ⟨hcnt, hpnv⟩ | ⟨hcnt, hpv⟩
      · refine ⟨?_, ?_, ?_, ?_, ?_, ?_, ?_, htc, htl, htr, commit_sb_invalid h,
          commit_scoreboard0 h, commit_scoreboard_char h⟩
        · rw [hrob, hh]; omega
        · rw [hrob, hh, ht, hc]
          have := h.tailEq
          have := h.headLt
          omega
        · rw [hrob, hc]; omega
        · rw [hrob, hc, hier, hlat, hcnt]
          simp [hpnv]
        · intro hp
          rw [hier, hlat, hpnv] at hp
          simp at hp
        · intro j hvj
          rw [hrob] at hvj
          rw [hent j] at hvj
          by_cases hj : j = s.rob.head
          · rw [if_pos hj] at hvj
            simp at hvj
          · rw [if_neg hj] at hvj
            rcases h.validChar j hvj with ⟨_, hje⟩ | ⟨hcc, _⟩
            · exact absurd hje hj
            · exact absurd hcc (by omega)
        · intro j hvj
          rw [hrob, hent j] at hvj
          rw [hser, hrob, hent j]
          by_cases hj : j = s.rob.head
          · rw [if_pos hj] at hvj
            simp at hvj
          · rw [if_neg hj] at hvj ⊢
            exact h.serialLt j hvj
      · have hpc := h.pendChar hpv
        have hlast : lastIdx s.rob = (s.rob.head + 1) % 32 := by
          unfold lastIdx
          rw [hcnt]
        rw [hlast] at hpc
        have hLne : (s.rob.head + 1) % 32 ≠ s.rob.head := by
          have := h.headLt
          omega
        have hvL := h.liveValid2 hcnt
        refine ⟨?_, ?_, ?_, ?_, ?_, ?_, ?_, htc, htl, htr, commit_sb_invalid h,
          commit_scoreboard0 h, commit_scoreboard_char h⟩
        · rw [hrob, hh]; omega
        · rw [hrob, hh, ht, hc]
          have h1 := h.tailEq
          have h2 := h.headLt
          omega
        · rw [hrob, hc]; omega
        · rw [hrob, hc, hier, hlat, hcnt]
          simp [hpv]
        · intro _
          rw [hrob, hier, hlat, hh]
          rw [hent ((s.rob.head + 1) % 32), if_neg hLne]
          exact ⟨hpc.2.1, hvL, hpc.2.2.1, hpc.2.2.2.1, hpc.2.2.2.2⟩
        · intro j hvj
          rw [hrob] at hvj ⊢
          rw [hent j] at hvj
          by_cases hj : j = s.rob.head
          · rw [if_pos hj] at hvj
            simp at hvj
          · rw [if_neg hj] at hvj
            rcases h.validChar j hvj with ⟨_, hje⟩ | ⟨_, hje⟩
            · exact absurd hje hj
            · rw [hh, hc]
              exact ⟨by omega, hje⟩
        · intro j hvj
          rw [hrob, hent j] at hvj
          rw [hser, hrob, hent j]
          by_cases hj : j = s.rob.head
          · rw [if_pos hj] at hvj
            simp at hvj
          · rw [if_neg hj] at hvj ⊢
            exact h.serialLt j hvj

/-- Fields of the EX stage that never change. -/
theorem exStage_frame (env : P64Env) (s : P64State) :
    (exStage env s).serialCtr = s.serialCtr ∧ (exStage env s).issueExReg = s.issueExReg ∧
    (exStage env s).issueExNext = s.issueExNext ∧
    (exStage env s).scoreboard = s.scoreboard ∧
    (exStage env s).writeTrace = s.writeTrace := by
  simp only [exStage]
  (repeat' split) <;> exact ⟨rfl, rfl, rfl, rfl, rfl⟩

/-- EX on an invalid issue latch does nothing. -/
theorem exStage_id (env : P64Env) (s : P64State) (hv : s.issueExReg.valid = false) :
    exStage env s = s := by
  simp only [exStage, hv]
  rfl

/-- The reorder buffer after EX on a valid latch with a legal ROB index:
the instruction completes into its entry. -/
theorem exStage_rob_complete (env : P64Env) (s : P64State)
    (hv : s.issueExReg.valid = true) (h0 : 0 ≤ s.issueExReg.robIndex) :
    ∃ res, (exStage env s).rob =
      s.rob.complete s.issueExReg.robIndex res s.issueExReg.rd := by
  simp only [exStage, hv]
  norm_num
  (repeat' split) <;> first
    | exact ⟨_, rfl⟩
    | (rename_i hneg; exact absurd h0 hneg)

/-- The store buffer after EX of a store. -/
theorem exStage_storeBuffer_store (env : P64Env) (s : P64State)
    (hv : s.issueExReg.valid = true) (hop : s.issueExReg.opcode = 0x23) :
    (exStage env s).storeBuffer =
      (s.storeBuffer.addStore (addImm64 s.issueExReg.rs1val s.issueExReg.imm)
        s.issueExReg.rs2val (exStoreSize s.issueExReg.funct3) s.issueExReg.robIndex).1 := by
  simp only [exStage, hv, hop]
  norm_num
  (repeat' split) <;> rfl

/-- The store buffer after EX of a non-store. -/
theorem exStage_storeBuffer_nonstore (env : P64Env) (s : P64State)
    (hop : s.issueExReg.opcode ≠ 0x23) :
    (exStage env s).storeBuffer = s.storeBuffer := by
  simp only [exStage]
  (repeat' split) <;> first
    | rfl
    | (rename_i hc; exact absurd hc hop)

/-- Shape of ReorderBuffer::complete at the head index. -/
theorem rob_complete_head {r : Rob} (hlt : r.head < 32) (res rd : Nat) :
    (r.complete ((r.head : Nat) : Int) res rd).head = r.head ∧
    (r.complete ((r.head : Nat) : Int) res rd).tail = r.tail ∧
    (r.complete ((r.head : Nat) : Int) res rd).count = r.count ∧
    ∀ j, (r.complete ((r.head : Nat) : Int) res rd).entries j =
      if j = r.head then
        { r.entries r.head with ready := true, result := res, destReg := rd }
      else r.entries j := by
  unfold Rob.complete
  rw [if_neg (by push_cast; omega)]
  refine ⟨rfl, rfl, rfl, fun j => ?_⟩
  simp only [Int.toNat_natCast]

/-- Adding a store to an empty store buffer fills slot 0. -/
theorem addStore_empty {sb : Sb} (hinv : ∀ j, (sb.entries j).valid = false)
    (a d sz : Nat) (ri : Int) :
    ∀ j, ((sb.addStore a d sz ri).1.entries j) =
      if j = 0 then ⟨true, a, d, sz, ri⟩ else sb.entries j := by
  intro j
  unfold Sb.addStore
  have hfind : (List.range 8).find? (fun i => !(sb.entries i).valid) = some 0 := by
    rw [show List.range 8 = 0 :: [1, 2, 3, 4, 5, 6, 7] from rfl]
    rw [List.find?_cons_of_pos]
    simp [hinv 0]
  rw [hfind]

/-- EX_stage takes the post-commit invariant to the post-EX invariant. -/
theorem ex_exc (env : P64Env) {s : P64State} (h : MidC s) : ExC (exStage env s) := by
  obtain ⟨hser, hier, hien, hsc, htrw⟩ := exStage_frame env s
  cases hv : s.issueExReg.valid with
  | false =>
      rw [exStage_id env s hv]
      have hnv : ∀ j, (s.rob.entries j).valid = true → False := by
        intro j hvj
        have hc1 := (h.validChar j hvj).1
        rw [← h.pendIff] at hc1
        rw [hv] at hc1
        exact Bool.false_ne_true hc1
      refine ⟨h.headLt, h.tailEq, h.countLe1, h.pendIff, ?_, h.validChar, ?_, ?_,
        h.serialLt, h.traceChain, h.traceLtLive, h.traceLtCtr, ?_, ?_, ?_, h.scoreboard0,
        h.scoreboardChar⟩
      · intro hp
        rw [hv] at hp
        exact absurd hp (by simp)
      · intro j hvj
        exact absurd (hnv j hvj) id
      · intro j hvj
        exact absurd (hnv j hvj) id
      · intro j hvj
        rw [h.sbInvalid j] at hvj
        exact absurd hvj (by simp)
      · intro j1 j2 hv1
        rw [h.sbInvalid j1] at hv1
        exact absurd hv1 (by simp)
      · intro i hvi
        exact absurd (hnv i hvi) id
  | true =>
      have hp := h.pendChar hv
      have hcnt : s.rob.count = 1 := h.pendIff.mp hv
      have h0 : 0 ≤ s.issueExReg.robIndex := by
        rw [hp.1]
        positivity
      obtain ⟨res, hrob⟩ := exStage_rob_complete env s hv h0
      rw [hp.1] at hrob
      obtain ⟨hch, hct, hcc, hce⟩ := rob_complete_head h.headLt res s.issueExReg.rd
      have hvalid' : ∀ j, ((exStage env s).rob.entries j).valid = true →
          (s.rob.entries j).valid = true := by
        intro j hvj
        rw [hrob, hce j] at hvj
        by_cases hj : j = s.rob.head
        · rw [if_pos hj] at hvj
          simp only at hvj
          rw [hj]
          exact hvj
        · rw [if_neg hj] at hvj
          exact hvj
      have hghost' : ∀ j, ((exStage env s).rob.entries j).ghostRd = (s.rob.entries j).ghostRd ∧
          ((exStage env s).rob.entries j).ghostSerial = (s.rob.entries j).ghostSerial ∧
          ((exStage env s).rob.entries j).isStore = (s.rob.entries j).isStore := by
        intro j
        rw [hrob, hce j]
        by_cases hj : j = s.rob.head
        · rw [if_pos hj, hj]
          exact ⟨rfl, rfl, rfl⟩
        · rw [if_neg hj]
          exact ⟨rfl, rfl, rfl⟩
      refine ⟨?_, ?_, ?_, ?_, ?_, ?_, ?_, ?_, ?_, ?_, ?_, ?_, ?_, ?_, ?_, ?_, ?_⟩
      · rw [hrob, hch]; exact h.headLt
      · rw [hrob, hch, hct, hcc]; exact h.tailEq
      · rw [hrob, hcc]; exact h.countLe1
      · rw [hrob, hcc, hier]; exact h.pendIff
      · intro _
        rw [hier, hrob, hch, hce s.rob.head, if_pos rfl]
        exact ⟨hp.2.1, rfl, hp.2.2.2.1, rfl, hp.2.2.2.2⟩
      · intro j hvj
        rw [hrob, hcc, hch]
        exact h.validChar j (hvalid' j hvj)
      · intro j hvj
        have hj := (h.validChar j (hvalid' j hvj)).2
        rw [hrob, hce j, if_pos hj]
      · intro j hvj hrj
        have hj := (h.validChar j (hvalid' j hvj)).2
        rw [hrob, hce j, if_pos hj]
        exact hp.2.2.2.1.symm
      · intro j hvj
        rw [hser, (hghost' j).2.1]
        exact h.serialLt j (hvalid' j hvj)
      · rw [htrw]; exact h.traceChain
      · intro w hw j hvj
        rw [htrw] at hw
        rw [(hghost' j).2.1]
        exact h.traceLtLive w hw j (hvalid' j hvj)
      · intro w hw
        rw [htrw] at hw
        rw [hser]
        exact h.traceLtCtr w hw
      · -- sbSound
        by_cases hop : s.issueExReg.opcode = 0x23
        · have hsb := exStage_storeBuffer_store env s hv hop
          intro j hvj
          rw [hsb, addStore_empty h.sbInvalid _ _ _ _ j] at hvj
          by_cases hj : j = 0
          · rw [if_pos hj] at hvj
            refine ⟨s.rob.head, ?_, ?_, ?_, ?_⟩
            · rw [hrob, hce s.rob.head, if_pos rfl]
              exact hp.2.1
            · rw [hrob, hce s.rob.head, if_pos rfl]
              show (s.rob.entries s.rob.head).isStore = true
              rw [hp.2.2.2.2, hop]
              rfl
            · rw [hrob, hce s.rob.head, if_pos rfl]
            · rw [hsb, addStore_empty h.sbInvalid _ _ _ _ j, if_pos hj]
              show s.issueExReg.robIndex = _
              exact hp.1
          · rw [if_neg hj, h.sbInvalid j] at hvj
            exact absurd hvj (by simp)
        · have hsb := exStage_storeBuffer_nonstore env s hop
          intro j hvj
          rw [hsb, h.sbInvalid j] at hvj
          exact absurd hvj (by simp)
      · -- sbInj
        by_cases hop : s.issueExReg.opcode = 0x23
        · have hsb := exStage_storeBuffer_store env s hv hop
          intro j1 j2 hv1 hv2 _
          rw [hsb, addStore_empty h.sbInvalid _ _ _ _ j1] at hv1
          rw [hsb, addStore_empty h.sbInvalid _ _ _ _ j2] at hv2
          by_cases hj1 : j1 = 0
          · by_cases hj2 : j2 = 0
            · rw [hj1, hj2]
            · rw [if_neg hj2, h.sbInvalid j2] at hv2
              exact absurd hv2 (by simp)
          · rw [if_neg hj1, h.sbInvalid j1] at hv1
            exact absurd hv1 (by simp)
        · have hsb := exStage_storeBuffer_nonstore env s hop
          intro j1 j2 hv1 _ _
          rw [hsb, h.sbInvalid j1] at hv1
          exact absurd hv1 (by simp)
      · -- sbComplete
        intro i hvi hsti hri
        have hie := (h.validChar i (hvalid' i hvi)).2
        by_cases hop : s.issueExReg.opcode = 0x23
        · have hsb := exStage_storeBuffer_store env s hv hop
          refine ⟨0, by omega, ?_, ?_⟩
          · rw [hsb, addStore_empty h.sbInvalid _ _ _ _ 0, if_pos rfl]
          · rw [hsb, addStore_empty h.sbInvalid _ _ _ _ 0, if_pos rfl]
            show s.issueExReg.robIndex = _
            rw [hie, hp.1]
        · exfalso
          have hX : (s.rob.entries s.rob.head).isStore = true := by
            rw [← hie]
            rw [← (hghost' i).2.2]
            exact hsti
          have hbeq : (s.issueExReg.opcode == 0x23) = true := by
            rw [← hp.2.2.2.2]
            exact hX
          simp only [beq_iff_eq] at hbeq
          exact hop hbeq
      · rw [hsc]; exact h.scoreboard0
      · intro i hbit
        rw [hsc] at hbit
        obtain ⟨j, hvj, hgj⟩ := h.scoreboardChar i hbit
        refine ⟨j, ?_, ?_⟩
        · rw [hrob, hce j]
          by_cases hj : j = s.rob.head
          · rw [if_pos hj]
            simp only []
            rw [← hj]
            exact hvj
          · rw [if_neg hj]
            exact hvj
        · rw [(hghost' j).1]
          exact hgj

/-- Shape of ReorderBuffer::allocate on a non-full buffer. -/
theorem rob_allocate_spec {r : Rob} (hnf : r.count < 32) :
    r.allocate.2 = ((r.tail : Nat) : Int) ∧
    r.allocate.1.head = r.head ∧ r.allocate.1.tail = (r.tail + 1) % 32 ∧
    r.allocate.1.count = r.count + 1 ∧
    ∀ j, r.allocate.1.entries j =
      if j = r.tail then
        { r.entries r.tail with valid := true, ready := false, exception := false }
      else r.entries j := by
  have hf : r.isFull = false := by
    simp only [Rob.isFull, beq_eq_false_iff_ne, ne_eq]
    omega
  unfold Rob.allocate
  rw [hf]
  exact ⟨rfl, rfl, rfl, rfl, fun j => rfl⟩

/-- Shape of the rob metadata update performed at issue. -/
theorem rob_setMeta_spec (r : Rob) (i pc : Nat) (isStore isBranch : Bool)
    (gRd gSerial : Nat) :
    (r.setMeta i pc isStore isBranch gRd gSerial).head = r.head ∧
    (r.setMeta i pc isStore isBranch gRd gSerial).tail = r.tail ∧
    (r.setMeta i pc isStore isBranch gRd gSerial).count = r.count ∧
    ∀ j, (r.setMeta i pc isStore isBranch gRd gSerial).entries j =
      if j = i then
        { r.entries i with
          pc := pc
          isStore := isStore
          isBranch := isBranch
          ghostRd := gRd
          ghostSerial := gSerial }
      else r.entries j := by
  unfold Rob.setMeta
  exact ⟨rfl, rfl, rfl, fun j => rfl⟩

/-- Any invariant-relevant state whose fields agree with a post-EX state
and whose issue latch has been squashed satisfies the boundary
invariant. -/
theorem pinv_squash {s s' : P64State} (h : ExC s)
    (hrob : s'.rob = s.rob) (hsb : s'.storeBuffer = s.storeBuffer)
    (hsc : s'.scoreboard = s.scoreboard) (htr : s'.writeTrace = s.writeTrace)
    (hse : s'.serialCtr = s.serialCtr) (hie : s'.issueExNext.valid = false) :
    PInv s' := by
  have hc1 := h.countLe1
  refine ⟨?_, ?_, ?_, ?_, ?_, ?_, ?_, ?_, ?_, ?_, ?_, ?_, ?_, ?_, ?_, ?_, ?_, ?_, ?_, ?_⟩ <;>
    simp only [hrob, hsb, hsc, htr, hse]
  · exact h.headLt
  · exact h.tailEq
  · omega
  · intro hcc
    have : s.rob.count = 1 := by omega
    have hv := h.pendIff.mpr this
    exact (h.pendDone hv).1
  · intro hcc
    exact absurd hcc (by omega)
  · intro j hvj
    exact Or.inl ⟨(h.validChar j hvj).1 ▸ by omega, (h.validChar j hvj).2⟩
  · intro hcc
    exact absurd hcc (by omega)
  · intro hp
    rw [hie] at hp
    exact absurd hp (by simp)
  · intro j hvj hrj
    rw [h.allReady j hvj] at hrj
    exact absurd hrj (by simp)
  · exact h.readyDest
  · intro hcc
    exact absurd hcc (by omega)
  · exact h.serialLt
  · exact h.traceChain
  · exact h.traceLtLive
  · exact h.traceLtCtr
  · exact h.sbSound
  · exact h.sbInj
  · exact h.sbComplete
  · exact h.scoreboard0
  · exact h.scoreboardChar

/-- Issue under a pipeline flush squashes the outgoing latch. -/
theorem issueStage_flush (s : P64State) (hfl : s.flushPipeline = true) :
    issueStage s = { s with
      stallPcgen := false
      stallFetch := false
      stallIssue := false
      issueExNext := { s.issueExNext with valid := false } } := by
  simp only [issueStage, hfl]
  rfl

/-- Issue with an invalid incoming instruction squashes the outgoing
latch. -/
theorem issueStage_invalid (s : P64State) (hfl : s.flushPipeline = false)
    (hiv : s.idIssueReg.valid = false) :
    issueStage s = { s with
      stallPcgen := false
      stallFetch := false
      stallIssue := false
      issueExNext := { s.issueExNext with valid := false } } := by
  simp only [issueStage, hfl, hiv]
  rfl

/-- Issue with a scoreboard hazard emits a bubble and stalls the whole
front end. -/
theorem issueStage_hazard (s : P64State) (hfl : s.flushPipeline = false)
    (hiv : s.idIssueReg.valid = true)
    (hhz : (s.scoreboard s.idIssueReg.rs1 || s.scoreboard s.idIssueReg.rs2) = true) :
    issueStage s = { s with
      stallPcgen := true
      stallFetch := true
      stallIssue := true
      issueExNext := { s.issueExNext with valid := false }
      stalls := s.stalls + 1 } := by
  simp only [issueStage, hfl, hiv, hhz]
  rfl

/-- Issue of a hazard-free instruction with a non-full ROB: allocate,
record the metadata, read the operands, tag with the ROB index, and mark
the destination busy. -/
theorem issueStage_success (s : P64State) (hfl : s.flushPipeline = false)
    (hiv : s.idIssueReg.valid = true)
    (hhz : (s.scoreboard s.idIssueReg.rs1 || s.scoreboard s.idIssueReg.rs2) = false)
    (hnf : s.rob.count < 32) :
    issueStage s = { s with
      stallPcgen := false
      stallFetch := false
      stallIssue := false
      rob := s.rob.allocate.1.setMeta s.rob.allocate.2.toNat s.idIssueReg.pc
        (s.idIssueReg.opcode == 0x23)
        (s.idIssueReg.opcode == 0x63 || s.idIssueReg.opcode == 0x6F ||
          s.idIssueReg.opcode == 0x67)
        s.idIssueReg.rd s.serialCtr
      serialCtr := s.serialCtr + 1
      issueExNext := { pc := s.idIssueReg.pc
                       rs1val := getReg s.regs s.idIssueReg.rs1
                       rs2val := getReg s.regs s.idIssueReg.rs2
                       imm := s.idIssueReg.imm
                       rd := s.idIssueReg.rd
                       opcode := s.idIssueReg.opcode
                       funct3 := s.idIssueReg.funct3
                       funct7 := s.idIssueReg.funct7
                       robIndex := s.rob.allocate.2
                       valid := true }
      scoreboard := fun i =>
        if i = s.idIssueReg.rd ∧ s.idIssueReg.rd ≠ 0 then true else s.scoreboard i } := by
  have har : s.rob.allocate.2 = ((s.rob.tail : Nat) : Int) := (rob_allocate_spec hnf).1
  have hnneg : ¬(s.rob.allocate.2 < 0) := by
    rw [har]
    omega
  have h1 : ¬(false = true) := by simp
  have h2 : ¬((!true) = true) := by simp
  simp only [issueStage, hfl, hiv, hhz]
  rw [if_neg h1, if_neg h2, if_neg h1, if_neg hnneg]

/-- Issue_stage takes the post-EX invariant back to the boundary
invariant. -/
theorem issue_restore {s : P64State} (h : ExC s) : PInv (issueStage s) := by
  by_cases hfl : s.flushPipeline = true
  · rw [issueStage_flush s hfl]
    exact pinv_squash h rfl rfl rfl rfl rfl rfl
  · have hfl' : s.flushPipeline = false := by
      cases hq : s.flushPipeline
      · rfl
      · exact absurd hq hfl
    by_cases hiv : s.idIssueReg.valid = true
    · by_cases hhz : (s.scoreboard s.idIssueReg.rs1 || s.scoreboard s.idIssueReg.rs2) = true
      · rw [issueStage_hazard s hfl' hiv hhz]
        exact pinv_squash h rfl rfl rfl rfl rfl rfl
      · have hhz' : (s.scoreboard s.idIssueReg.rs1 || s.scoreboard s.idIssueReg.rs2) = false := by
          cases hq : (s.scoreboard s.idIssueReg.rs1 || s.scoreboard s.idIssueReg.rs2)
          · rfl
          · exact absurd hq hhz
        have hnf : s.rob.count < 32 := by
          have := h.countLe1
          omega
        rw [issueStage_success s hfl' hiv hhz' hnf]
        obtain ⟨har, hah, hat, hac, hae⟩ := rob_allocate_spec hnf
        have hidx : s.rob.allocate.2.toNat = s.rob.tail := by
          rw [har]
          exact Int.toNat_natCast _
        rw [hidx]
        obtain ⟨hmh, hmt, hmc, hme⟩ := rob_setMeta_spec s.rob.allocate.1 s.rob.tail
          s.idIssueReg.pc (s.idIssueReg.opcode == 0x23)
          (s.idIssueReg.opcode == 0x63 || s.idIssueReg.opcode == 0x6F ||
            s.idIssueReg.opcode == 0x67)
          s.idIssueReg.rd s.serialCtr
        have hent : ∀ j, (s.rob.allocate.1.setMeta s.rob.tail s.idIssueReg.pc
            (s.idIssueReg.opcode == 0x23)
            (s.idIssueReg.opcode == 0x63 || s.idIssueReg.opcode == 0x6F ||
              s.idIssueReg.opcode == 0x67)
            s.idIssueReg.rd s.serialCtr).entries j =
            if j = s.rob.tail then
              { s.rob.entries s.rob.tail with
                valid := true
                ready := false
                exception := false
                pc := s.idIssueReg.pc
                isStore := (s.idIssueReg.opcode == 0x23)
                isBranch := (s.idIssueReg.opcode == 0x63 || s.idIssueReg.opcode == 0x6F ||
                  s.idIssueReg.opcode == 0x67)
                ghostRd := s.idIssueReg.rd
                ghostSerial := s.serialCtr }
            else s.rob.entries j := by
          intro j
          rw [hme j]
          by_cases hj : j = s.rob.tail
          · rw [if_pos hj, if_pos hj, hae s.rob.tail, if_pos rfl]
          · rw [if_neg hj, if_neg hj, hae j, if_neg hj]
        have hLt := h.headLt
        have hTe := h.tailEq
        have hCle := h.countLe1
        have htailhead : s.rob.count = 0 → s.rob.tail = s.rob.head := by
          intro hc0
          rw [hTe, hc0]
          simpa using Nat.mod_eq_of_lt hLt
        have htailne : s.rob.count = 1 → s.rob.tail ≠ s.rob.head := by
          intro hc1
          rw [hTe, hc1]
          omega
        have hlast : lastIdx (s.rob.allocate.1.setMeta s.rob.tail s.idIssueReg.pc
            (s.idIssueReg.opcode == 0x23)
            (s.idIssueReg.opcode == 0x63 || s.idIssueReg.opcode == 0x6F ||
              s.idIssueReg.opcode == 0x67)
            s.idIssueReg.rd s.serialCtr) = s.rob.tail := by
          unfold lastIdx
          rw [hmh, hah, hmc, hac, hTe]
          omega
        refine ⟨?_, ?_, ?_, ?_, ?_, ?_, ?_, ?_, ?_, ?_, ?_, ?_, ?_, ?_, ?_, ?_, ?_, ?_, ?_,
          ?_⟩ <;> simp only [hmh, hmt, hmc, hah, hat, hac]
        · exact hLt
        · rw [hTe]
          omega
        · omega
        · intro _
          rw [hent s.rob.head]
          rcases Nat.le_one_iff_eq_zero_or_eq_one.mp hCle with hc0 | hc1
          · rw [if_pos (htailhead hc0).symm]
          · rw [if_neg (fun hh => htailne hc1 hh.symm)]
            exact (h.pendDone (h.pendIff.mpr hc1)).1
        · intro hcc
          have hc1 : s.rob.count = 1 := by omega
          have hcond : (s.rob.head + 1) % 32 = s.rob.tail := by rw [hTe, hc1]
          rw [hent ((s.rob.head + 1) % 32), if_pos hcond]
        · intro j hvj
          rw [hent j] at hvj
          by_cases hj : j = s.rob.tail
          · rcases Nat.le_one_iff_eq_zero_or_eq_one.mp hCle with hc0 | hc1
            · exact Or.inl ⟨by omega, hj.trans (htailhead hc0)⟩
            · refine Or.inr ⟨by omega, ?_⟩
              rw [hj, hTe, hc1]
          · rw [if_neg hj] at hvj
            obtain ⟨hc1, hjh⟩ := h.validChar j hvj
            exact Or.inl ⟨by omega, hjh⟩
        · intro _
          trivial
        · intro _
          refine ⟨by omega, ?_, ?_, ?_, ?_⟩
          · rw [hlast]
            exact har
          · rw [hlast, hent s.rob.tail, if_pos rfl]
          · rw [hlast, hent s.rob.tail, if_pos rfl]
          · rw [hlast, hent s.rob.tail, if_pos rfl]
        · intro j hvj hrj
          rw [hent j] at hvj hrj
          by_cases hj : j = s.rob.tail
          · exact ⟨trivial, hj.trans hlast.symm⟩
          · rw [if_neg hj] at hvj hrj
            rw [h.allReady j hvj] at hrj
            exact absurd hrj (by simp)
        · intro j hvj hrj
          rw [hent j] at hvj hrj ⊢
          by_cases hj : j = s.rob.tail
          · rw [if_pos hj] at hrj
            exact absurd hrj (by simp)
          · rw [if_neg hj] at hvj hrj ⊢
            exact h.readyDest j hvj hrj
        · intro hcc
          have hc1 : s.rob.count = 1 := by omega
          have hvh := (h.pendDone (h.pendIff.mpr hc1)).1
          have hcond : (s.rob.head + 1) % 32 = s.rob.tail := by rw [hTe, hc1]
          have hne : ¬(s.rob.head = s.rob.tail) := fun hh => htailne hc1 hh.symm
          rw [hent s.rob.head, hent ((s.rob.head + 1) % 32), if_neg hne, if_pos hcond]
          exact h.serialLt s.rob.head hvh
        · intro j hvj
          rw [hent j] at hvj ⊢
          by_cases hj : j = s.rob.tail
          · rw [if_pos hj]
            show s.serialCtr < s.serialCtr + 1
            omega
          · rw [if_neg hj] at hvj ⊢
            have := h.serialLt j hvj
            omega
        · exact h.traceChain
        · intro w hw j hvj
          rw [hent j] at hvj ⊢
          by_cases hj : j = s.rob.tail
          · rw [if_pos hj]
            show w.ghostSerial < s.serialCtr
            exact h.traceLtCtr w hw
          · rw [if_neg hj] at hvj ⊢
            exact h.traceLtLive w hw j hvj
        · intro w hw
          have := h.traceLtCtr w hw
          omega
        · intro j hvj
          obtain ⟨i, hvi, hsti, hri, hidxi⟩ := h.sbSound j hvj
          obtain ⟨hc1, hih⟩ := h.validChar i hvi
          have hne : ¬(i = s.rob.tail) := by
            rw [hih]
            exact fun hh => htailne hc1 hh.symm
          refine ⟨i, ?_, ?_, ?_, hidxi⟩ <;> rw [hent i, if_neg hne]
          · exact hvi
          · exact hsti
          · exact hri
        · exact h.sbInj
        · intro i hvi hsti hri
          rw [hent i] at hvi hsti hri
          by_cases hi : i = s.rob.tail
          · rw [if_pos hi] at hri
            exact absurd hri (by simp)
          · rw [if_neg hi] at hvi hsti hri
            exact h.sbComplete i hvi hsti hri
        · have hcond : ¬((0 : Nat) = s.idIssueReg.rd ∧ s.idIssueReg.rd ≠ 0) :=
            fun hh => hh.2 hh.1.symm
          show (if (0 : Nat) = s.idIssueReg.rd ∧ s.idIssueReg.rd ≠ 0 then true
            else s.scoreboard 0) = false
          rw [if_neg hcond]
          exact h.scoreboard0
        · intro i hbit
          by_cases hcond : i = s.idIssueReg.rd ∧ s.idIssueReg.rd ≠ 0
          · refine ⟨s.rob.tail, ?_, ?_⟩ <;> rw [hent s.rob.tail, if_pos rfl]
            exact hcond.1.symm
          · have hbit2 : s.scoreboard i = true := by
              have hb : (if i = s.idIssueReg.rd ∧ s.idIssueReg.rd ≠ 0 then true
                  else s.scoreboard i) = true := hbit
              rwa [if_neg hcond] at hb
            obtain ⟨j, hvj, hgj⟩ := h.scoreboardChar i hbit2
            obtain ⟨hc1, hjh⟩ := h.validChar j hvj
            have hne : ¬(j = s.rob.tail) := by
              rw [hjh]
              exact fun hh => htailne hc1 hh.symm
            refine ⟨j, ?_, ?_⟩ <;> rw [hent j, if_neg hne]
            · exact hvj
            · exact hgj
    · have hiv' : s.idIssueReg.valid = false := by
        cases hq : s.idIssueReg.valid
        · rfl
        · exact absurd hq hiv
      rw [issueStage_invalid s hfl' hiv']
      exact pinv_squash h rfl rfl rfl rfl rfl rfl

/-- The Issue stage does not touch the write trace. -/
theorem issueStage_writeTrace (s : P64State) :
    (issueStage s).writeTrace = s.writeTrace := by
  simp only [issueStage]
  (repeat' split) <;> rfl

/-- One pipeline cycle appends to the write trace exactly the writes
that the commit stage performs on the latched state. -/
theorem step_writeTrace (env : P64Env) (s : P64State) :
    ((step env s).1).writeTrace = s.writeTrace ++ commitWrites (latchCopy s) := by
  simp only [step]
  rw [(pcgenStage_frame _).2.2.2.1, (fetchStage_frame env _).2.2.2.1,
    (idStage_frame _).2.2.2.1, issueStage_writeTrace, (exStage_frame env _).2.2.2.2,
    commitStage_writeTrace]
  rfl

/-- The boundary invariant is preserved by one full pipeline cycle. -/
theorem pinv_step (env : P64Env) {s : P64State} (h : PInv s) : PInv (step env s).1 := by
  have h1 : PInv (latchCopy s) := pinv_of_eq h rfl rfl rfl rfl rfl rfl
  have h2 : MidC (commitStage (latchCopy s)) := commit_mid h1 rfl
  have h3 : ExC (exStage env (commitStage (latchCopy s))) := ex_exc env h2
  have h4 : PInv (issueStage (exStage env (commitStage (latchCopy s)))) := issue_restore h3
  obtain ⟨a5, b5, c5, d5, e5, f5⟩ :=
    idStage_frame (issueStage (exStage env (commitStage (latchCopy s))))
  have h5 := pinv_of_eq h4 a5 b5 c5 d5 e5 f5
  obtain ⟨a6, b6, c6, d6, e6, f6⟩ :=
    fetchStage_frame env (idStage (issueStage (exStage env (commitStage (latchCopy s)))))
  have h6 := pinv_of_eq h5 a6 b6 c6 d6 e6 f6
  obtain ⟨a7, b7, c7, d7, e7, f7⟩ :=
    pcgenStage_frame
      (fetchStage env (idStage (issueStage (exStage env (commitStage (latchCopy s))))))
  have h7 := pinv_of_eq h6 a7 b7 c7 d7 e7 f7
  simp only [step]
  exact pinv_of_eq h7 rfl rfl rfl rfl rfl rfl

/-- The boundary invariant holds in the construction state. -/
theorem pinv_init (pc : Nat) (regs0 : Nat → Nat) : PInv (initState pc regs0) := by
  refine ⟨?_, ?_, ?_, ?_, ?_, ?_, ?_, ?_, ?_, ?_, ?_, ?_, ?_, ?_, ?_, ?_, ?_, ?_, ?_,
    ?_⟩ <;> simp [initState, Rob.init, Sb.init, lastIdx]

/-- The boundary invariant holds in every reachable state of the RV64
6-stage pipeline. -/
theorem pinv_reachable {s : P64State} (h : Reachable s) : PInv s := by
  induction h with
  | init pc regs0 => exact pinv_init pc regs0
  | step env _ ih => exact pinv_step env ih

end P64

/-- C1 (counterexample): in the RV32 6-stage pipeline a store is written
to memory by the MEM stage itself — here a SW with address 0x1000 and
data 42 emits the memory write at the MEM stage — with no store buffer
and no ROB retirement involved, so in that 6-stage variant stores do not
wait for a Commit-stage retirement. -/
theorem C1_counterexample :
    (P32.memStage (fun _ _ => 0)
      { aluResult := 0x1000
        storeData := 42
        funct3 := 0x2
        memWrite := true
        valid := true }).2 = [⟨0x1000, 42, 4⟩] := rfl

/-- C1 (amended): in the RV64 6-stage pipeline each cycle appends to the
memory-write trace exactly the commit-stage writes of the latched state;
a non-empty commit write comes from the retiring head ROB entry, which
is a completed store, and carries that entry's serial number; in every
reachable state no write of a still-live (un-retired) entry is in the
trace, every completed store sits in the store buffer until commit, and
the trace is strictly ordered by the program-order serial numbers. -/
theorem C1_amended :
    (∀ (env : P64Env) (s : P64State),
      ((P64.step env s).1).writeTrace =
        s.writeTrace ++ P64.commitWrites (P64.latchCopy s)) ∧
    (∀ s : P64State,
      P64.commitWrites s = [] ∨
        (s.rob.headReady = true ∧ (s.rob.getHead).isStore = true ∧
          ∃ w, P64.commitWrites s = [w] ∧
            w.ghostSerial = (s.rob.getHead).ghostSerial)) ∧
    (∀ s : P64State, P64.Reachable s → ∀ w ∈ s.writeTrace,
      ∀ j, (s.rob.entries j).valid = true →
        w.ghostSerial < (s.rob.entries j).ghostSerial) ∧
    (∀ s : P64State, P64.Reachable s → ∀ i, (s.rob.entries i).valid = true →
      (s.rob.entries i).isStore = true → (s.rob.entries i).ready = true →
      ∃ j, j < 8 ∧ (s.storeBuffer.entries j).valid = true ∧
        (s.storeBuffer.entries j).robIndex = (i : Int)) ∧
    (∀ s : P64State, P64.Reachable s →
      List.Chain' (· < ·) (s.writeTrace.map MemWrite.ghostSerial)) :=
  ⟨fun env s => P64.step_writeTrace env s, fun s => P64.commitWrites_spec s,
    fun _ hr => (P64.pinv_reachable hr).traceLtLive,
    fun _ hr => (P64.pinv_reachable hr).sbComplete,
    fun _ hr => (P64.pinv_reachable hr).traceChain⟩

set_option maxRecDepth 8000 in
/-- Concrete run for C1: under an instruction bus that always yields
sw x0, 0(x0), six cycles from the construction state retire the first
store, whose write (addr 0, data 0, size 4, serial 0) is the only trace
entry; the C1 trace equation holds on the following cycle of that run,
and the trace-order property holds in the reachable construction
state. -/
theorem C1_witness :
    P64.swRun6.writeTrace = [⟨0, 0, 4, 0⟩] ∧
    ((P64.step P64.swEnv P64.swRun6).1).writeTrace =
      P64.swRun6.writeTrace ++ P64.commitWrites (P64.latchCopy P64.swRun6) ∧
    List.Chain' (· < ·)
      ((P64.initState 0 (fun _ => 0)).writeTrace.map MemWrite.ghostSerial) :=
  ⟨by decide, C1_amended.1 P64.swEnv P64.swRun6,
    C1_amended.2.2.2.2 _ (P64.Reachable.init 0 (fun _ => 0))⟩

/-- C5: the Issue stage of the RV64 6-stage pipeline emits a bubble and
stalls the whole front end whenever scoreboard[rs1] or scoreboard[rs2]
is set; it sets scoreboard[rd] when issuing an instruction with rd ≠ 0;
the commit stage clears the retired destination bit; and in every
reachable state scoreboard[i] is clear whenever no in-flight ROB entry
has destination register i. -/
theorem C5_scoreboard :
    (∀ s : P64State, s.flushPipeline = false → s.idIssueReg.valid = true →
      (s.scoreboard s.idIssueReg.rs1 || s.scoreboard s.idIssueReg.rs2) = true →
      (P64.issueStage s).issueExNext.valid = false ∧
        (P64.issueStage s).stallIssue = true ∧ (P64.issueStage s).stallFetch = true ∧
        (P64.issueStage s).stallPcgen = true ∧
        (P64.issueStage s).stalls = s.stalls + 1) ∧
    (∀ s : P64State, s.flushPipeline = false → s.idIssueReg.valid = true →
      (s.scoreboard s.idIssueReg.rs1 || s.scoreboard s.idIssueReg.rs2) = false →
      s.rob.count < 32 → s.idIssueReg.rd ≠ 0 →
      (P64.issueStage s).scoreboard s.idIssueReg.rd = true) ∧
    (∀ s : P64State, s.rob.headReady = true → (s.rob.getHead).destReg ≠ 0 →
      (P64.commitStage s).scoreboard (s.rob.getHead).destReg = false) ∧
    (∀ s : P64State, P64.Reachable s →
      ∀ i, (∀ j, (s.rob.entries j).valid = true → (s.rob.entries j).ghostRd ≠ i) →
      s.scoreboard i = false) := by
  refine ⟨?_, ?_, ?_, ?_⟩
  · intro s h1 h2 h3
    rw [P64.issueStage_hazard s h1 h2 h3]
    exact ⟨rfl, rfl, rfl, rfl, rfl⟩
  · intro s h1 h2 h3 h4 h5
    rw [P64.issueStage_success s h1 h2 h3 h4]
    show (if s.idIssueReg.rd = s.idIssueReg.rd ∧ s.idIssueReg.rd ≠ 0 then true
      else s.scoreboard s.idIssueReg.rd) = true
    rw [if_pos ⟨rfl, h5⟩]
  · intro s h1 h2
    exact P64.commitStage_scoreboard_clear s h1 h2
  · intro s hr i hni
    cases hq : s.scoreboard i with
    | false => rfl
    | true =>
        obtain ⟨j, hvj, hgj⟩ := (P64.pinv_reachable hr).scoreboardChar i hq
        exact absurd hgj (hni j hvj)

/-- Concrete instantiation of the C5 theorem: a hazard on rs1 = 1
bubbles the issue latch, and in the (reachable) construction state the
scoreboard bit of register 5 is clear since no entry is in flight. -/
theorem C5_witness :
    (P64.issueStage { idIssueReg := { rs1 := 1
                                      valid := true }
                      scoreboard := fun i => decide (i = 1)
                      rob := Rob.init
                      storeBuffer := Sb.init
                      regs := fun _ => 0 }).issueExNext.valid = false ∧
    (P64.initState 0 (fun _ => 0)).scoreboard 5 = false := by
  constructor
  · have h := C5_scoreboard.1 { idIssueReg := { rs1 := 1
                                                valid := true }
                                scoreboard := fun i => decide (i = 1)
                                rob := Rob.init
                                storeBuffer := Sb.init
                                regs := fun _ => 0 } rfl rfl rfl
    exact h.1
  · exact C5_scoreboard.2.2.2 _ (P64.Reachable.init 0 (fun _ => 0)) 5
      (fun j hv => absurd hv (by simp [P64.initState, Rob.init]))

end RiscvVP
